import Mathlib

/-!
# System reset (`kernel/ke/reset.c`)

A shallow embedding of `KeSysResetSystem`, `KepSysResetSystemWorkItem` and
`KeResetSystem`.  The routines call into the process manager, the time
counter, the I/O flush, the debugger transport and the hardware layer; none
of these is part of the sources, so every answer they give is read from an
environment, and every call is recorded in a trace.
-/

namespace KeReset

/-! ## Types and constants coming from kernel headers -/

/-- Kernel status values (`KSTATUS`, a signed machine integer). -/
abbrev KSTATUS := Int

/-- Constants of the status header, which is not among the sources.  They are
taken as parameters: the status codes named by `reset.c` and by its
documentation, and the success test `KSUCCESS`. -/
structure StatusCodes where
  STATUS_SUCCESS : KSTATUS
  STATUS_INVALID_PARAMETER : KSTATUS
  STATUS_PERMISSION_DENIED : KSTATUS
  KSUCCESS : KSTATUS → Bool

/-- Reset types are values of a C enumeration, numbered from zero; it has no
negative member, so its values are unsigned. -/
abbrev SYSTEM_RESET_TYPE := Nat

/-- Modelled from the spec: the enumeration `SYSTEM_RESET_TYPE` is declared in
a kernel header that is not among the sources.  The spec names an explicit
invalid sentinel, the three kinds shutdown, warm and cold, and an
out-of-range bound; they are numbered in declaration order. -/
def SystemResetInvalid : SYSTEM_RESET_TYPE := 0

/-- Modelled from the spec: second enumerator of `SYSTEM_RESET_TYPE`. -/
def SystemResetShutdown : SYSTEM_RESET_TYPE := 1

/-- Modelled from the spec: third enumerator of `SYSTEM_RESET_TYPE`. -/
def SystemResetWarm : SYSTEM_RESET_TYPE := 2

/-- Modelled from the spec: fourth enumerator of `SYSTEM_RESET_TYPE`. -/
def SystemResetCold : SYSTEM_RESET_TYPE := 3

/-- Modelled from the spec: closing enumerator of `SYSTEM_RESET_TYPE`, the
number of reset types. -/
def SystemResetTypeCount : SYSTEM_RESET_TYPE := 4

/-- The reset type is one of the three kinds the switch of `KeResetSystem`
accepts. -/
def ValidResetType (ResetType : SYSTEM_RESET_TYPE) : Prop :=
  ResetType = SystemResetWarm ∨ ResetType = SystemResetShutdown ∨
    ResetType = SystemResetCold

instance (ResetType : SYSTEM_RESET_TYPE) : Decidable (ValidResetType ResetType) := by
  unfold ValidResetType; infer_instance

/-- Seconds to wait for processes to end after a signal. -/
def RESET_SYSTEM_PROCESS_SIGNAL_TIMEOUT : Nat := 30

/-- Microseconds in a millisecond (a unit constant of the kernel headers). -/
def MICROSECONDS_PER_MILLISECOND : Nat := 1000

/-- Microseconds between two polls of the process count. -/
def RESET_SYSTEM_SIGNAL_POLL_INTERVAL : Nat := 20 * MICROSECONDS_PER_MILLISECOND

/-- The two signals `KeResetSystem` broadcasts. -/
inductive Signal where
  | SIGNAL_REQUEST_TERMINATION
  | SIGNAL_KILL
  deriving DecidableEq, Repr

/-- The texts handed to `RtlDebugPrint`, with their arguments. -/
inductive Message where
  | goingDown (Description : String)
  | stillAlive (Count : Nat)
  | stillAliveAfterKill (Count : Nat)
  | dataLossPossible
  | flushFailure
  | countIncreased (Count : Nat)
  | resetUnsuccessful (Status : KSTATUS)
  deriving DecidableEq, Repr

/-- The two wait phases of `KeResetSystem`: after the termination request
(lines 142-158) and after the kill signal (lines 167-183). -/
inductive Phase where
  | polite
  | forced
  deriving DecidableEq, Repr

/-- The five places where `KeResetSystem` calls `PsGetProcessCount`: inside a
wait loop (lines 151, 176), right after a wait phase (lines 161, 185), and in
the final check (line 211). -/
inductive Site where
  | inLoop (p : Phase)
  | afterWait (p : Phase)
  | finalCheck
  deriving DecidableEq, Repr

/-- One call out of `KeResetSystem`, with the value it returned where it
returns one.  Calls that occur at several places of the routine carry the
place they were made from. -/
inductive Event where
  | HlQueryTimeCounterFrequency (Frequency : Nat)
  | RtlDebugPrint (Text : Message)
  | PsSignalAllProcesses (FromKernel : Bool) (SignalNumber : Signal) (Status : KSTATUS)
  | KeGetRecentTimeCounter (p : Phase) (Value : Nat)
  | PsGetProcessCount (at_ : Site) (Count : Nat)
  | KeDelayExecution (p : Phase) (Microseconds : Nat)
  | IoFlush (Status : KSTATUS)
  | KdDisconnect
  | HlResetSystem (ResetType : SYSTEM_RESET_TYPE)
  | KdConnect
  deriving DecidableEq, Repr

/-- What the collaborators answer during one run of `KeResetSystem`: the
counter frequency, the successive readings of the time counter and of the
process count, the status of each signal broadcast, the flush status, and
the status `HlResetSystem` returns (`none` when it does not return because
the system was reset). -/
structure Env where
  Frequency : Nat
  counter : Nat → Nat
  census : Nat → Nat
  signal : Nat → KSTATUS
  flush : KSTATUS
  reset : SYSTEM_RESET_TYPE → Option KSTATUS

/-- The `k`-th reading of the time counter, a `ULONGLONG`. -/
def Env.counterAt (env : Env) (k : Nat) : Nat := env.counter k % 2 ^ 64

/-- The `k`-th reading of the process count, a `ULONG`. -/
def Env.censusAt (env : Env) (k : Nat) : Nat := env.census k % 2 ^ 32

/-- The counter frequency, a `ULONGLONG`. -/
def Env.frequency (env : Env) : Nat := env.Frequency % 2 ^ 64

/-- The deadline of a wait phase,
`Now + (Frequency * RESET_SYSTEM_PROCESS_SIGNAL_TIMEOUT)` on `ULONGLONG`
(lines 142-143 and 167-168). -/
def deadline (Now Frequency : Nat) : Nat :=
  (Now + (Frequency * RESET_SYSTEM_PROCESS_SIGNAL_TIMEOUT) % 2 ^ 64) % 2 ^ 64

/-- The calls made so far, and how many readings of each stream were used. -/
structure State where
  trace : List Event
  counterReads : Nat
  censusPolls : Nat
  signalCalls : Nat
  deriving DecidableEq, Repr

/-- Nothing has been called yet. -/
def State.start : State := ⟨[], 0, 0, 0⟩

/-- Record a call that consumes no reading. -/
def State.emit (s : State) (e : Event) : State :=
  ⟨s.trace ++ [e], s.counterReads, s.censusPolls, s.signalCalls⟩

/-- `HlQueryTimeCounterFrequency()`, a `ULONGLONG`. -/
def HlQueryTimeCounterFrequency (env : Env) (s : State) : Nat × State :=
  (env.frequency, s.emit (.HlQueryTimeCounterFrequency env.frequency))

/-- `KeGetRecentTimeCounter()`, a `ULONGLONG`: the next counter reading. -/
def KeGetRecentTimeCounter (env : Env) (p : Phase) (s : State) : Nat × State :=
  (env.counterAt s.counterReads,
    ⟨s.trace ++ [.KeGetRecentTimeCounter p (env.counterAt s.counterReads)],
      s.counterReads + 1, s.censusPolls, s.signalCalls⟩)

/-- `PsGetProcessCount()`, a `ULONG`: the next census reading. -/
def PsGetProcessCount (env : Env) (site : Site) (s : State) : Nat × State :=
  (env.censusAt s.censusPolls,
    ⟨s.trace ++ [.PsGetProcessCount site (env.censusAt s.censusPolls)],
      s.counterReads, s.censusPolls + 1, s.signalCalls⟩)

/-- `PsSignalAllProcesses(FromKernel, SignalNumber, NULL)`: the status of the
next broadcast. -/
def PsSignalAllProcesses (env : Env) (FromKernel : Bool) (SignalNumber : Signal)
    (s : State) : KSTATUS × State :=
  (env.signal s.signalCalls,
    ⟨s.trace ++ [.PsSignalAllProcesses FromKernel SignalNumber (env.signal s.signalCalls)],
      s.counterReads, s.censusPolls, s.signalCalls + 1⟩)

/-- `KeDelayExecution(TRUE, FALSE, Microseconds)`. -/
def KeDelayExecution (p : Phase) (Microseconds : Nat) (s : State) : State :=
  s.emit (.KeDelayExecution p Microseconds)

/-- `IoFlush(INVALID_HANDLE, 0, 0, FLUSH_FLAG_ALL_SYNCHRONOUS)`. -/
def IoFlush (env : Env) (s : State) : KSTATUS × State :=
  (env.flush, s.emit (.IoFlush env.flush))

/-- `RtlDebugPrint`. -/
def RtlDebugPrint (Text : Message) (s : State) : State :=
  s.emit (.RtlDebugPrint Text)

/-- `ProcessCount - 1` on a `ULONG`, as the warnings print it. -/
def ulongPred (ProcessCount : Nat) : Nat := (ProcessCount + 2 ^ 32 - 1) % 2 ^ 32

/-- How a run of `KeResetSystem` stands: it returned a status, or
`HlResetSystem` did not return (the system was reset), or it is still inside
a wait loop after the iterations it was allowed. -/
inductive Outcome where
  | returned (Status : KSTATUS)
  | systemReset
  | stillWaiting
  deriving DecidableEq, Repr

/-! ## `KeResetSystem` -/

/-- The switch on the reset type (lines 112-130): the description to print,
or `none` on the default branch. -/
def resetDescription (ResetType : SYSTEM_RESET_TYPE) : Option String :=
  if ResetType = SystemResetWarm then some "warm reset"
  else if ResetType = SystemResetShutdown then some "shutdown"
  else if ResetType = SystemResetCold then some "cold reset"
  else none

/-- The `do { ... } while (KeGetRecentTimeCounter() <= Timeout)` loop (lines
150-158 and 175-183), run for at most `fuel` iterations.  The flag tells
whether the loop was left. -/
def waitLoop (env : Env) (p : Phase) (Timeout : Nat) : Nat → State → Bool × State
  | 0, s => (false, s)
  | fuel + 1, s =>
    let (ProcessCount, s) := PsGetProcessCount env (.inLoop p) s
    if ProcessCount ≤ 1 then (true, s)
    else
      let s := KeDelayExecution p RESET_SYSTEM_SIGNAL_POLL_INTERVAL s
      let (Now, s) := KeGetRecentTimeCounter env p s
      if Now ≤ Timeout then waitLoop env p Timeout fuel s
      else (true, s)

/-- A wait phase (lines 142-158 and 167-183): the deadline is the current
counter plus `Frequency * RESET_SYSTEM_PROCESS_SIGNAL_TIMEOUT`, in 64-bit
arithmetic, and then the loop runs. -/
def waitPhase (env : Env) (p : Phase) (Frequency : Nat) (fuel : Nat) (s : State) :
    Bool × State :=
  let (Now, s) := KeGetRecentTimeCounter env p s
  let Timeout := deadline Now Frequency
  waitLoop env p Timeout fuel s

/-- Lines 198-225: the flush, the final check and the reset itself (`ASSERT`
is a no-op).  `ProcessCount` is the value the variable holds on line 198. -/
def resetTail (K : StatusCodes) (env : Env) (ResetType : SYSTEM_RESET_TYPE)
    (ProcessCount : Nat) (s : State) : Outcome × State :=
  let (Status, s) := IoFlush env s
  let s := if !K.KSUCCESS Status then
      RtlDebugPrint .dataLossPossible (RtlDebugPrint .flushFailure s)
    else s
  let s := if ProcessCount ≤ 1 then
      let (FinalProcessCount, s) := PsGetProcessCount env .finalCheck s
      if FinalProcessCount ≠ 1 then
        RtlDebugPrint (.countIncreased (ulongPred FinalProcessCount)) s
      else s
    else s
  let s := s.emit .KdDisconnect
  let s := s.emit (.HlResetSystem ResetType)
  match env.reset ResetType with
  | none => (.systemReset, s)
  | some Status =>
    let s := s.emit .KdConnect
    let s := RtlDebugPrint (.resetUnsuccessful Status) s
    (.returned Status, s)

/-- Lines 140-159: the termination request and, when the broadcast succeeded,
the polite wait phase. -/
def politePhase (K : StatusCodes) (env : Env) (Frequency : Nat) (fuel : Nat)
    (s : State) : Bool × State :=
  let (Status, s) := PsSignalAllProcesses env true .SIGNAL_REQUEST_TERMINATION s
  if K.KSUCCESS Status then waitPhase env .polite Frequency fuel s
  else (true, s)

/-- Lines 161-196: the poll after the polite wait and, when it does not read
one, the kill signal, the forced wait phase and the poll after it.  The
result is the value of `ProcessCount` on line 198, or `none` while the forced
wait loop has not been left. -/
def forcedPhase (env : Env) (Frequency : Nat) (fuel : Nat) (s : State) :
    Option Nat × State :=
  let (ProcessCount, s) := PsGetProcessCount env (.afterWait .polite) s
  if ProcessCount ≠ 1 then
    let s := RtlDebugPrint (.stillAlive (ulongPred ProcessCount)) s
    let (_, s) := PsSignalAllProcesses env true .SIGNAL_KILL s
    let (left, s) := waitPhase env .forced Frequency fuel s
    if left then
      let (ProcessCount, s) := PsGetProcessCount env (.afterWait .forced) s
      if ProcessCount ≠ 1 then
        (some ProcessCount,
          RtlDebugPrint .dataLossPossible
            (RtlDebugPrint (.stillAliveAfterKill (ulongPred ProcessCount)) s))
      else (some ProcessCount, s)
    else (none, s)
  else (some ProcessCount, s)

/-- The routine `KeResetSystem` (lines 100-226), each wait loop being allowed
`fuel` iterations.  `ASSERT` is a no-op, as in a release build. -/
def KeResetSystem (K : StatusCodes) (env : Env) (fuel : Nat)
    (ResetType : SYSTEM_RESET_TYPE) : Outcome × State :=
  let (Frequency, s) := HlQueryTimeCounterFrequency env State.start
  match resetDescription ResetType with
  | none => (.returned K.STATUS_INVALID_PARAMETER, s)
  | some Description =>
    let s := RtlDebugPrint (.goingDown Description) s
    let (left, s) := politePhase K env Frequency fuel s
    if left then
      match forcedPhase env Frequency fuel s with
      | (some ProcessCount, s) => resetTail K env ResetType ProcessCount s
      | (none, s) => (.stillWaiting, s)
    else (.stillWaiting, s)

/-- The work item `KepSysResetSystemWorkItem` (lines 314-321): the parameter
is the reset type itself, and the status of `KeResetSystem` is dropped. -/
def KepSysResetSystemWorkItem (K : StatusCodes) (env : Env) (fuel : Nat)
    (Parameter : Nat) : List Event :=
  (KeResetSystem K env fuel Parameter).2.trace

/-! ## `KeSysResetSystem` -/

/-- The calls `KeSysResetSystem` makes. -/
inductive SysCall where
  | PsCheckPermission (Status : KSTATUS)
  | KeCreateAndQueueWorkItem (Parameter : Nat) (Status : KSTATUS)
  deriving DecidableEq, Repr

/-- What the collaborators of the system call answer: the status of
`PsCheckPermission(PERMISSION_REBOOT)` for the calling thread, and the status
of `KeCreateAndQueueWorkItem`. -/
structure Caller where
  permission : KSTATUS
  queue : KSTATUS

/-- What `KeSysResetSystem` leaves behind: the value returned, the value
stored in `Parameters->Status`, and the calls made. -/
structure SysResult where
  Status : KSTATUS
  ParametersStatus : KSTATUS
  calls : List SysCall
  deriving DecidableEq, Repr

/-- The system call `KeSysResetSystem` (lines 253-285). -/
def KeSysResetSystem (K : StatusCodes) (caller : Caller)
    (ResetType : SYSTEM_RESET_TYPE) : SysResult :=
  if ResetType = SystemResetInvalid ∨ ResetType ≥ SystemResetTypeCount then
    ⟨K.STATUS_INVALID_PARAMETER, K.STATUS_INVALID_PARAMETER, []⟩
  else
    let Status := caller.permission
    if !K.KSUCCESS Status then
      ⟨Status, Status, [.PsCheckPermission Status]⟩
    else
      let Status := caller.queue
      ⟨Status, Status,
        [.PsCheckPermission caller.permission, .KeCreateAndQueueWorkItem ResetType Status]⟩

/-- Modelled from the spec: the work queue is not among the sources.  The
spec has every request that was handed over run the orchestrator once, on a
worker; a request whose queueing failed is not run.  These are the calls the
worker makes for the work items of one system call. -/
def workerTrace (K : StatusCodes) (env : Env) (fuel : Nat) : List SysCall → List Event
  | [] => []
  | .PsCheckPermission _ :: rest => workerTrace K env fuel rest
  | .KeCreateAndQueueWorkItem Parameter Status :: rest =>
    (if K.KSUCCESS Status then KepSysResetSystemWorkItem K env fuel Parameter else []) ++
      workerTrace K env fuel rest

/-! ## Reading a trace -/

/-- A broadcast of the kill signal. -/
def Event.isKill : Event → Bool
  | .PsSignalAllProcesses _ .SIGNAL_KILL _ => true
  | _ => false

/-- Any signal broadcast. -/
def Event.isSignal : Event → Bool
  | .PsSignalAllProcesses _ _ _ => true
  | _ => false

/-- Any poll of the process count. -/
def Event.isCensus : Event → Bool
  | .PsGetProcessCount _ _ => true
  | _ => false

/-- A call of `IoFlush`. -/
def Event.isFlush : Event → Bool
  | .IoFlush _ => true
  | _ => false

/-- A call of `KdDisconnect`, `HlResetSystem` or `KdConnect`. -/
def Event.isDebuggerOrReset : Event → Bool
  | .KdDisconnect => true
  | .HlResetSystem _ => true
  | .KdConnect => true
  | _ => false

/-- The poll of the final check (line 211). -/
def Event.isFinalCheck : Event → Bool
  | .PsGetProcessCount .finalCheck _ => true
  | _ => false

/-- A call of `KdDisconnect`. -/
def Event.isDisconnect : Event → Bool
  | .KdDisconnect => true
  | _ => false

/-- A call of lines 198-225 other than a message: the flush, the poll of the
final check, the debugger calls and the reset. -/
def Event.isTailCall (e : Event) : Bool :=
  e.isFlush || e.isFinalCheck || e.isDebuggerOrReset

/-- The poll after the forced wait (line 185) read more than one: processes
survived the kill signal. -/
def Event.survivedKill : Event → Bool
  | .PsGetProcessCount (.afterWait .forced) Count => decide (1 < Count)
  | _ => false

/-- A call of `KeDelayExecution`. -/
def Event.isDelay : Event → Bool
  | .KeDelayExecution _ _ => true
  | _ => false

/-- A reading that ends a wait loop whose deadline is `Timeout`: a poll of the
loop that reads at most one, or a counter reading above the deadline. -/
def Event.stops (Timeout : Nat) : Event → Bool
  | .PsGetProcessCount (.inLoop _) Count => decide (Count ≤ 1)
  | .KeGetRecentTimeCounter _ Value => decide (Timeout < Value)
  | _ => false

/-- A call made from inside the wait phase `ph`: a counter reading, a poll of
the loop, or a delay. -/
def Event.inPhase (ph : Phase) : Event → Bool
  | .KeGetRecentTimeCounter q _ => decide (q = ph)
  | .PsGetProcessCount (.inLoop q) _ => decide (q = ph)
  | .KeDelayExecution q _ => decide (q = ph)
  | _ => false

/-- The calls of lines 198-225 in order, `Final` being the reading of the
final check. -/
def tailEvents (K : StatusCodes) (env : Env) (ResetType : SYSTEM_RESET_TYPE)
    (ProcessCount Final : Nat) : List Event :=
  [.IoFlush env.flush] ++
  (if K.KSUCCESS env.flush then []
    else [.RtlDebugPrint .flushFailure, .RtlDebugPrint .dataLossPossible]) ++
  (if ProcessCount ≤ 1 then
      .PsGetProcessCount .finalCheck Final ::
        (if Final = 1 then [] else [.RtlDebugPrint (.countIncreased (ulongPred Final))])
    else []) ++
  [.KdDisconnect, .HlResetSystem ResetType] ++
  (match env.reset ResetType with
    | none => []
    | some Status => [.KdConnect, .RtlDebugPrint (.resetUnsuccessful Status)])

/-- How a run that reached line 222 ends. -/
def tailOutcome (env : Env) (ResetType : SYSTEM_RESET_TYPE) : Outcome :=
  match env.reset ResetType with
  | none => .systemReset
  | some Status => .returned Status

/-- The calls of lines 111-140: the frequency query, the first message and
the termination request. -/
def headEvents (env : Env) (Description : String) : List Event :=
  [.HlQueryTimeCounterFrequency env.frequency,
   .RtlDebugPrint (.goingDown Description),
   .PsSignalAllProcesses true .SIGNAL_REQUEST_TERMINATION (env.signal 0)]

/-- The calls of lines 161-166 when the poll after the polite wait reads
`Count`, which is not one. -/
def killEvents (env : Env) (Count : Nat) : List Event :=
  [.PsGetProcessCount (.afterWait .polite) Count,
   .RtlDebugPrint (.stillAlive (ulongPred Count)),
   .PsSignalAllProcesses true .SIGNAL_KILL (env.signal 1)]

/-- The calls of lines 185-195 when the poll after the forced wait reads
`Count`. -/
def afterKillEvents (Count : Nat) : List Event :=
  .PsGetProcessCount (.afterWait .forced) Count ::
    (if Count = 1 then []
      else [.RtlDebugPrint (.stillAliveAfterKill (ulongPred Count)),
            .RtlDebugPrint .dataLossPossible])

/-- The time counter advances and does not wrap while the run lasts: every
reading is above the one before, and the readings a run can reach, with the
timeout added, stay below `2 ^ 64`. -/
def CounterAdvances (env : Env) : Prop :=
  (∀ k, env.counter k < env.counter (k + 1)) ∧
  env.counter (2 * (RESET_SYSTEM_PROCESS_SIGNAL_TIMEOUT * env.frequency + 2)) +
    RESET_SYSTEM_PROCESS_SIGNAL_TIMEOUT * env.frequency < 2 ^ 64

/-! ## Sample inputs -/

/-- A status header for the examples: success is zero and is the only status
that passes `KSUCCESS`; invalid parameter and permission denied are two
distinct failure codes.  Only their being distinct is used. -/
def sampleCodes : StatusCodes := ⟨0, -6, -10, fun Status => decide (Status = 0)⟩

/-- A failure status other than invalid parameter and permission denied, such
as the one an allocation failure yields, in the sample header. -/
def sampleInsufficientResources : KSTATUS := -8

/-- The status `HlResetSystem` gives back in the examples where it fails. -/
def sampleUnsuccessful : KSTATUS := -1

/-- A caller that may not reboot, in the sample header. -/
def deniedCaller : Caller := ⟨sampleCodes.STATUS_PERMISSION_DENIED, sampleCodes.STATUS_SUCCESS⟩

/-- A caller that may reboot while the work item cannot be allocated. -/
def unluckyCaller : Caller := ⟨sampleCodes.STATUS_SUCCESS, sampleInsufficientResources⟩

/-- A machine whose counter runs at one tick per second and advances ten
ticks per reading, where only the kernel process is ever alive, every call
succeeds and the reset does not return. -/
def quietEnv : Env :=
  ⟨1, fun k => 10 * k, fun _ => 1, fun _ => 0, 0, fun _ => none⟩

/-- A machine like `quietEnv` where a second process shows up between the
poll of the polite wait loop, which still reads one, and the poll that
follows it, which reads two; afterwards only the kernel process is alive. -/
def lateProcessEnv : Env :=
  ⟨1, fun k => 10 * k, fun k => if k = 1 then 2 else 1, fun _ => 0, 0, fun _ => none⟩

/-- A machine where one process survives both signals: every poll reads two.
The counter advances by a hundred seconds per reading, the flush succeeds
and `HlResetSystem` comes back with a failure. -/
def stubbornEnv : Env :=
  ⟨1, fun k => 100 * k, fun _ => 2, fun _ => 0, 0, fun _ => some sampleUnsuccessful⟩

/-- A machine where every broadcast and the flush fail, one process is alive
besides the kernel at the first poll and none afterwards, and `HlResetSystem`
comes back with a failure. -/
def failingEnv : Env :=
  ⟨1, fun k => 10 * k, fun k => if k = 0 then 2 else 1, fun _ => sampleUnsuccessful,
    sampleUnsuccessful, fun _ => some sampleUnsuccessful⟩

end KeReset

/-!
# Tool commands in make format (`apps/mbgen/make.c`)

A shallow embedding of `MbgenMakePrintToolCommand`.  The command is a C
string: its characters, none of them the terminator, then the terminator,
and nothing that may be read after it.  The characters written to the file
are collected in a list.
-/

namespace Mbgen

/-- The character classes `MBGEN_IS_NAME0` (can start a variable name) and
`MBGEN_IS_NAME` (can continue one).  They are macros of `mbgen.h`, which is
not among the sources, and are taken as parameters. -/
structure NameClass where
  MBGEN_IS_NAME0 : Char → Bool
  MBGEN_IS_NAME : Char → Bool

/-- The string terminator. -/
def NUL : Char := Char.ofNat 0

/-- The text `MBGEN_MAKE_INPUTS`. -/
def MBGEN_MAKE_INPUTS : List Char := ['$', '+']

/-- The text `MBGEN_MAKE_OUTPUT`. -/
def MBGEN_MAKE_OUTPUT : List Char := ['$', '@']

/-- The format `MBGEN_MAKE_VARIABLE` applied to a name. -/
def MBGEN_MAKE_VARIABLE (Variable : List Char) : List Char :=
  ['$', '('] ++ Variable ++ [')']

/-- The C library routine `strcasecmp`: zero exactly when the two strings are
equal once every letter is put in lower case.  Only whether the result is
zero is used. -/
def strcasecmp (a b : List Char) : Int :=
  if a.map Char.toLower = b.map Char.toLower then 0 else 1

/-- The character `*Command` when the cursor is at index `i`: a character of
the command, the terminator right after them, and no character beyond. -/
def charAt (Command : List Char) (i : Nat) : Option Char :=
  match Command[i]? with
  | some c => some c
  | none => if i = Command.length then some NUL else none

/-- The loop `while (MBGEN_IS_NAME(*Command)) Command += 1` (lines 506-508),
run on the characters from the cursor to the terminator: the number of
characters skipped, or `none` when the terminator itself counts as a name
character, so that the loop goes past it. -/
def nameLength (N : NameClass) : List Char → Option Nat
  | [] => if N.MBGEN_IS_NAME NUL then none else some 0
  | c :: rest =>
    if N.MBGEN_IS_NAME c then (nameLength N rest).map (· + 1) else some 0

/-- What lines 517-526 print for the name `Variable`. -/
def printVariable (Variable : List Char) : List Char :=
  if strcasecmp Variable ['i', 'n'] = 0 then MBGEN_MAKE_INPUTS
  else if strcasecmp Variable ['o', 'u', 't'] = 0 then MBGEN_MAKE_OUTPUT
  else MBGEN_MAKE_VARIABLE Variable

/-- How a scan stands: it was not started because the copy could not be
allocated, or the loop was left at the terminator, or a character was read
beyond the terminator, or the iterations allowed are used up.  The text is
what was written to the file, the number is the index of the cursor. -/
inductive ScanResult where
  | noCopy
  | finished (out : List Char) (cursor : Nat)
  | overrun (out : List Char) (cursor : Nat)
  | unfinished (out : List Char) (cursor : Nat)
  deriving DecidableEq, Repr

/-- The loop `while (*Command != 0)` of lines 475-532, run for at most `fuel`
iterations from the cursor `i`, `out` being what was written so far. -/
def scanLoop (N : NameClass) (Command : List Char) : Nat → Nat → List Char → ScanResult
  | 0, i, out => .unfinished out i
  | fuel + 1, i, out =>
    match charAt Command i with
    | none => .overrun out i
    | some c =>
      if c = NUL then .finished out i
      else if c ≠ '$' then scanLoop N Command fuel (i + 1) (out ++ [c])
      else
        match charAt Command (i + 1) with
        | none => .overrun out (i + 1)
        | some d =>
          if d = '$' then scanLoop N Command fuel (i + 1 + 1) (out ++ [d])
          else if !N.MBGEN_IS_NAME0 d then
            scanLoop N Command fuel (i + 1 + 1) (out ++ ['$', d])
          else
            match nameLength N (Command.drop (i + 1)) with
            | none => .overrun out (Command.length + 1)
            | some n =>
              scanLoop N Command fuel (i + 1 + n)
                (out ++ printVariable ((Command.drop (i + 1)).take n))

/-- The routine `MbgenMakePrintToolCommand` (lines 464-536).  `allocated`
tells whether `strdup` returned a copy; the copy has the characters of the
command. -/
def MbgenMakePrintToolCommand (N : NameClass) (allocated : Bool) (fuel : Nat)
    (Command : List Char) : ScanResult :=
  if allocated then scanLoop N Command fuel 0 [] else .noCopy

/-! ## The conversion as a list of rules -/

/-- The reference to a variable in make format: `$+` for the name `in`, `$@`
for the name `out`, both whatever the case of their letters, and `$(name)`
for any other name. -/
def makeReference (name : List Char) : List Char :=
  if name.map Char.toLower = ['i', 'n'] then ['$', '+']
  else if name.map Char.toLower = ['o', 'u', 't'] then ['$', '@']
  else ['$', '('] ++ name ++ [')']

/-- The conversion by rules, read from left to right: a character other than
`$` stands for itself, `$$` for one `$`, `$` and a character that cannot
start a name for the two of them, `$` and a name (the longest run of name
characters) for the reference to it.  The flag tells that a `$` is left at
the very end with nothing after it, a case the rules do not cover; the text
is what the rules give up to there.  The first argument bounds the number of
rules applied and is the length of the command. -/
def toMakeAux (N : NameClass) : Nat → List Char → List Char × Bool
  | _, [] => ([], false)
  | 0, _ :: _ => ([], false)
  | n + 1, c :: rest =>
    if c ≠ '$' then (c :: (toMakeAux N n rest).1, (toMakeAux N n rest).2)
    else
      match rest with
      | [] => ([], true)
      | d :: rest =>
        if d = '$' then ('$' :: (toMakeAux N n rest).1, (toMakeAux N n rest).2)
        else if !N.MBGEN_IS_NAME0 d then
          ('$' :: d :: (toMakeAux N n rest).1, (toMakeAux N n rest).2)
        else
          (makeReference (d :: rest.takeWhile N.MBGEN_IS_NAME) ++
              (toMakeAux N n (rest.dropWhile N.MBGEN_IS_NAME)).1,
            (toMakeAux N n (rest.dropWhile N.MBGEN_IS_NAME)).2)

/-- The text the rules give for a command. -/
def toMake (N : NameClass) (Command : List Char) : List Char :=
  (toMakeAux N Command.length Command).1

/-- The command ends in a `$` that the rules leave over. -/
def danglingDollar (N : NameClass) (Command : List Char) : Bool :=
  (toMakeAux N Command.length Command).2

/-! ## Sample inputs -/

/-- The name characters of C identifiers: a letter or an underscore to start
with, letters, digits and underscores after it. -/
def identifierClass : NameClass :=
  ⟨fun c => c.isAlpha || c == '_', fun c => c.isAlphanum || c == '_'⟩

/-- The command `cc -o $out $IN $$x $1 $CFLAGS$b_1.c`. -/
def sampleCommand : List Char :=
  ['c', 'c', ' ', '-', 'o', ' ', '$', 'o', 'u', 't', ' ', '$', 'I', 'N', ' ', '$', '$', 'x',
   ' ', '$', '1', ' ', '$', 'C', 'F', 'L', 'A', 'G', 'S', '$', 'b', '_', '1', '.', 'c']

/-- The text `cc -o $@ $+ $x $1 $(CFLAGS)$(b_1).c`. -/
def sampleText : List Char :=
  ['c', 'c', ' ', '-', 'o', ' ', '$', '@', ' ', '$', '+', ' ', '$', 'x', ' ', '$', '1', ' ',
   '$', '(', 'C', 'F', 'L', 'A', 'G', 'S', ')', '$', '(', 'b', '_', '1', ')', '.', 'c']

/-- The command `a$`, which ends in a single `$`. -/
def danglingCommand : List Char := ['a', '$']

/-- The command `cc $in $`, where a variable is followed by a single `$` at
the end. -/
def leftOverCommand : List Char := ['c', 'c', ' ', '$', 'i', 'n', ' ', '$']

end Mbgen

namespace KeReset

/-! ## The wait loop -/

theorem waitLoop_trace (env : Env) (ph : Phase) (Timeout : Nat) :
    ∀ (fuel : Nat) (s : State), ∃ w,
      (waitLoop env ph Timeout fuel s).2.trace = s.trace ++ w ∧
      (∀ e ∈ w, e.inPhase ph = true) ∧
      (waitLoop env ph Timeout fuel s).2.signalCalls = s.signalCalls := by
  intro fuel
  induction fuel with
  | zero => intro s; exact ⟨[], by simp [waitLoop]⟩
  | succ n ih =>
    intro s
    simp only [waitLoop, PsGetProcessCount, KeDelayExecution, KeGetRecentTimeCounter,
      State.emit]
    split
    · exact ⟨[.PsGetProcessCount (.inLoop ph) (env.censusAt s.censusPolls)], rfl,
        by simp [Event.inPhase], rfl⟩
    · split
      · obtain ⟨w, hw, hin, hsig⟩ := ih
          ⟨s.trace ++ [.PsGetProcessCount (.inLoop ph) (env.censusAt s.censusPolls)] ++
            [.KeDelayExecution ph RESET_SYSTEM_SIGNAL_POLL_INTERVAL] ++
            [.KeGetRecentTimeCounter ph (env.counterAt s.counterReads)],
            s.counterReads + 1, s.censusPolls + 1, s.signalCalls⟩
        refine ⟨[.PsGetProcessCount (.inLoop ph) (env.censusAt s.censusPolls),
          .KeDelayExecution ph RESET_SYSTEM_SIGNAL_POLL_INTERVAL,
          .KeGetRecentTimeCounter ph (env.counterAt s.counterReads)] ++ w, ?_, ?_, ?_⟩
        · rw [hw]; simp
        · intro e he
          simp only [List.mem_append, List.mem_cons, List.mem_singleton] at he
          rcases he with (rfl | rfl | rfl | h) | h
          · simp [Event.inPhase]
          · simp [Event.inPhase]
          · simp [Event.inPhase]
          · cases h
          · exact hin e h
        · rw [hsig]
      · exact ⟨[.PsGetProcessCount (.inLoop ph) (env.censusAt s.censusPolls),
          .KeDelayExecution ph RESET_SYSTEM_SIGNAL_POLL_INTERVAL,
          .KeGetRecentTimeCounter ph (env.counterAt s.counterReads)], by simp,
          by simp [Event.inPhase], rfl⟩

theorem waitPhase_trace (env : Env) (ph : Phase) (Frequency fuel : Nat) (s : State) :
    ∃ w, (waitPhase env ph Frequency fuel s).2.trace = s.trace ++ w ∧
      (∀ e ∈ w, e.inPhase ph = true) ∧
      (waitPhase env ph Frequency fuel s).2.signalCalls = s.signalCalls := by
  simp only [waitPhase, KeGetRecentTimeCounter]
  obtain ⟨w, hw, hin, hsig⟩ := waitLoop_trace env ph
    (deadline (env.counterAt s.counterReads) Frequency) fuel
    ⟨s.trace ++ [.KeGetRecentTimeCounter ph (env.counterAt s.counterReads)],
      s.counterReads + 1, s.censusPolls, s.signalCalls⟩
  refine ⟨.KeGetRecentTimeCounter ph (env.counterAt s.counterReads) :: w, ?_, ?_, ?_⟩
  · rw [hw]; simp
  · intro e he
    rcases List.mem_cons.1 he with rfl | h
    · simp [Event.inPhase]
    · exact hin e h
  · rw [hsig]

theorem resetTail_shape (K : StatusCodes) (env : Env) (ResetType : SYSTEM_RESET_TYPE)
    (ProcessCount : Nat) (s : State) :
    (resetTail K env ResetType ProcessCount s).1 = tailOutcome env ResetType ∧
    (resetTail K env ResetType ProcessCount s).2.trace =
      s.trace ++ tailEvents K env ResetType ProcessCount (env.censusAt s.censusPolls) := by
  unfold resetTail tailOutcome tailEvents
  simp only [IoFlush, RtlDebugPrint, PsGetProcessCount, State.emit]
  cases env.reset ResetType <;> cases K.KSUCCESS env.flush <;>
    by_cases h1 : ProcessCount ≤ 1 <;>
    by_cases h2 : env.censusAt s.censusPolls = 1 <;> simp [h1, h2]

theorem politePhase_shape (K : StatusCodes) (env : Env) (Frequency fuel : Nat) (s : State) :
    ∃ w1, (∀ e ∈ w1, e.inPhase .polite = true) ∧
      (politePhase K env Frequency fuel s).2.trace =
        s.trace ++ .PsSignalAllProcesses true .SIGNAL_REQUEST_TERMINATION
          (env.signal s.signalCalls) :: w1 ∧
      (politePhase K env Frequency fuel s).2.signalCalls = s.signalCalls + 1 ∧
      (K.KSUCCESS (env.signal s.signalCalls) = false →
        w1 = [] ∧ (politePhase K env Frequency fuel s).2.censusPolls = s.censusPolls) ∧
      ((politePhase K env Frequency fuel s).1 = false →
        K.KSUCCESS (env.signal s.signalCalls) = true) := by
  unfold politePhase
  simp only [PsSignalAllProcesses]
  cases hk : K.KSUCCESS (env.signal s.signalCalls)
  · exact ⟨[], by simp⟩
  · obtain ⟨w, hw, hin, hsig⟩ := waitPhase_trace env .polite Frequency fuel
      ⟨s.trace ++ [.PsSignalAllProcesses true .SIGNAL_REQUEST_TERMINATION
        (env.signal s.signalCalls)], s.counterReads, s.censusPolls, s.signalCalls + 1⟩
    refine ⟨w, hin, ?_, ?_, by simp, by simp⟩
    · simp only [if_true]; rw [hw]; simp
    · simp only [if_true]; rw [hsig]

theorem forcedPhase_shape (env : Env) (Frequency fuel : Nat) (s : State) :
    (env.censusAt s.censusPolls = 1 ∧
      (forcedPhase env Frequency fuel s).1 = some (env.censusAt s.censusPolls) ∧
      (forcedPhase env Frequency fuel s).2.trace =
        s.trace ++ [.PsGetProcessCount (.afterWait .polite) (env.censusAt s.censusPolls)]) ∨
    (env.censusAt s.censusPolls ≠ 1 ∧ ∃ w2, (∀ e ∈ w2, e.inPhase .forced = true) ∧
      (((forcedPhase env Frequency fuel s).1 = none ∧
        (forcedPhase env Frequency fuel s).2.trace =
          s.trace ++ [.PsGetProcessCount (.afterWait .polite) (env.censusAt s.censusPolls),
            .RtlDebugPrint (.stillAlive (ulongPred (env.censusAt s.censusPolls))),
            .PsSignalAllProcesses true .SIGNAL_KILL (env.signal s.signalCalls)] ++ w2) ∨
       (∃ c2, (forcedPhase env Frequency fuel s).1 = some c2 ∧
        (forcedPhase env Frequency fuel s).2.trace =
          s.trace ++ [.PsGetProcessCount (.afterWait .polite) (env.censusAt s.censusPolls),
            .RtlDebugPrint (.stillAlive (ulongPred (env.censusAt s.censusPolls))),
            .PsSignalAllProcesses true .SIGNAL_KILL (env.signal s.signalCalls)] ++ w2 ++
            afterKillEvents c2))) := by
  unfold forcedPhase
  simp only [PsGetProcessCount, RtlDebugPrint, PsSignalAllProcesses, State.emit]
  by_cases h1 : env.censusAt s.censusPolls = 1
  · left
    simp [h1]
  · right
    refine ⟨h1, ?_⟩
    obtain ⟨w, hw, hin, -⟩ := waitPhase_trace env .forced Frequency fuel
      ⟨s.trace ++ [.PsGetProcessCount (.afterWait .polite) (env.censusAt s.censusPolls)] ++
        [.RtlDebugPrint (.stillAlive (ulongPred (env.censusAt s.censusPolls)))] ++
        [.PsSignalAllProcesses true .SIGNAL_KILL (env.signal s.signalCalls)],
        s.counterReads, s.censusPolls + 1, s.signalCalls + 1⟩
    refine ⟨w, hin, ?_⟩
    simp only [ne_eq, h1, not_false_eq_true, if_true]
    generalize waitPhase env .forced Frequency fuel _ = r at hw
    obtain ⟨left, s2⟩ := r
    cases left
    · left
      simp only [Bool.false_eq_true, if_false, true_and]
      simp only at hw
      rw [hw]; simp
    · right
      simp only at hw
      refine ⟨env.censusAt s2.censusPolls, ?_⟩
      by_cases h2 : env.censusAt s2.censusPolls = 1
      · simp [h2, afterKillEvents, hw]
      · simp [h2, afterKillEvents, hw]

theorem resetDescription_valid (ResetType : SYSTEM_RESET_TYPE)
    (hv : ValidResetType ResetType) : ∃ d, resetDescription ResetType = some d := by
  rcases hv with h | h | h <;> subst h <;> simp [resetDescription, SystemResetWarm,
    SystemResetShutdown, SystemResetCold]

theorem tailOutcome_ne_stillWaiting (env : Env) (ResetType : SYSTEM_RESET_TYPE) :
    tailOutcome env ResetType ≠ .stillWaiting := by
  unfold tailOutcome
  cases env.reset ResetType <;> simp

/-- The trace of a run of `KeResetSystem` with a valid reset type, cut into
its phases: `w1` and `w2` are the calls of the two wait phases, `c1` and `c2`
the polls after them, `f` the poll of the final check. -/
theorem KeResetSystem_shape (K : StatusCodes) (env : Env) (fuel : Nat)
    (ResetType : SYSTEM_RESET_TYPE) (hv : ValidResetType ResetType) :
    ∃ desc w1 w2 c1 c2 f,
      (∀ e ∈ w1, e.inPhase .polite = true) ∧ (∀ e ∈ w2, e.inPhase .forced = true) ∧
      (K.KSUCCESS (env.signal 0) = false → w1 = [] ∧ c1 = env.censusAt 0) ∧
      (((KeResetSystem K env fuel ResetType).1 = .stillWaiting ∧
          K.KSUCCESS (env.signal 0) = true ∧
          (KeResetSystem K env fuel ResetType).2.trace = headEvents env desc ++ w1) ∨
       (c1 = 1 ∧ (KeResetSystem K env fuel ResetType).1 = tailOutcome env ResetType ∧
          (KeResetSystem K env fuel ResetType).2.trace =
            headEvents env desc ++ w1 ++ [.PsGetProcessCount (.afterWait .polite) c1] ++
              tailEvents K env ResetType c1 f) ∨
       (c1 ≠ 1 ∧ (KeResetSystem K env fuel ResetType).1 = .stillWaiting ∧
          (KeResetSystem K env fuel ResetType).2.trace =
            headEvents env desc ++ w1 ++ killEvents env c1 ++ w2) ∨
       (c1 ≠ 1 ∧ (KeResetSystem K env fuel ResetType).1 = tailOutcome env ResetType ∧
          (KeResetSystem K env fuel ResetType).2.trace =
            headEvents env desc ++ w1 ++ killEvents env c1 ++ w2 ++ afterKillEvents c2 ++
              tailEvents K env ResetType c2 f)) := by
  obtain ⟨desc, hd⟩ := resetDescription_valid ResetType hv
  unfold KeResetSystem
  simp only [hd, HlQueryTimeCounterFrequency, RtlDebugPrint, State.emit, State.start]
  obtain ⟨w1, hin1, htr1, hsig1, hfail, hstill⟩ := politePhase_shape K env env.frequency fuel
    ⟨[] ++ [.HlQueryTimeCounterFrequency env.frequency] ++
      [.RtlDebugPrint (.goingDown desc)], 0, 0, 0⟩
  generalize politePhase K env env.frequency fuel _ = r1 at htr1 hsig1 hfail hstill
  obtain ⟨left1, s1⟩ := r1
  simp only at htr1 hsig1 hfail hstill
  cases left1
  · refine ⟨desc, w1, [], 0, 0, 0, hin1, by simp, ?_, Or.inl ⟨by simp, hstill rfl, ?_⟩⟩
    · intro hk; rw [hstill rfl] at hk; cases hk
    · simp [htr1, headEvents]
  · simp only [if_true]
    rcases forcedPhase_shape env env.frequency fuel s1 with ⟨h1, ho, htr2⟩ | ⟨h1, w2, hin2, h⟩
    · generalize forcedPhase env env.frequency fuel s1 = r2 at ho htr2
      obtain ⟨o2, s2⟩ := r2
      simp only at ho htr2
      subst ho
      simp only
      obtain ⟨hout, htr3⟩ := resetTail_shape K env ResetType (env.censusAt s1.censusPolls) s2
      refine ⟨desc, w1, [], env.censusAt s1.censusPolls, 0, env.censusAt s2.censusPolls,
        hin1, by simp, ?_, Or.inr (Or.inl ⟨h1, hout, ?_⟩)⟩
      · intro hk; exact ⟨(hfail hk).1, by rw [(hfail hk).2]⟩
      · rw [htr3, htr2, htr1]; simp [headEvents]
    · rcases h with ⟨ho, htr2⟩ | ⟨c2, ho, htr2⟩
      · generalize forcedPhase env env.frequency fuel s1 = r2 at ho htr2
        obtain ⟨o2, s2⟩ := r2
        simp only at ho htr2
        subst ho
        simp only
        refine ⟨desc, w1, w2, env.censusAt s1.censusPolls, 0, 0,
          hin1, hin2, ?_, Or.inr (Or.inr (Or.inl ⟨h1, trivial, ?_⟩))⟩
        · intro hk; exact ⟨(hfail hk).1, by rw [(hfail hk).2]⟩
        · rw [htr2, htr1, hsig1]; simp [headEvents, killEvents]
      · generalize forcedPhase env env.frequency fuel s1 = r2 at ho htr2
        obtain ⟨o2, s2⟩ := r2
        simp only at ho htr2
        subst ho
        simp only
        obtain ⟨hout, htr3⟩ := resetTail_shape K env ResetType c2 s2
        refine ⟨desc, w1, w2, env.censusAt s1.censusPolls, c2, env.censusAt s2.censusPolls,
          hin1, hin2, ?_, Or.inr (Or.inr (Or.inr ⟨h1, hout, ?_⟩))⟩
        · intro hk; exact ⟨(hfail hk).1, by rw [(hfail hk).2]⟩
        · rw [htr3, htr2, htr1, hsig1]; simp [headEvents, killEvents]

/-! ## Leaving the wait loops -/

theorem waitLoop_stable (env : Env) (ph : Phase) (Timeout : Nat) :
    ∀ (fuel : Nat) (s : State), (waitLoop env ph Timeout fuel s).1 = true →
      ∀ k, waitLoop env ph Timeout (fuel + k) s = waitLoop env ph Timeout fuel s := by
  intro fuel
  induction fuel with
  | zero => intro s h; simp [waitLoop] at h
  | succ n ih =>
    intro s h k
    rw [Nat.add_right_comm]
    simp only [waitLoop] at h ⊢
    split
    · rfl
    · rename_i hc
      simp only [hc, if_false] at h
      split
      · rename_i ht
        simp only [ht, if_true] at h
        exact ih _ h k
      · rfl

theorem waitLoop_leaves (env : Env) (ph : Phase) (Timeout : Nat) :
    ∀ (n : Nat) (s : State),
      (∃ j, s.counterReads ≤ j ∧ j ≤ s.counterReads + n ∧ Timeout < env.counterAt j) →
      (waitLoop env ph Timeout (n + 1) s).1 = true := by
  intro n
  induction n with
  | zero =>
    rintro s ⟨j, h1, h2, h3⟩
    have hj : j = s.counterReads := by omega
    subst hj
    simp only [waitLoop, PsGetProcessCount, KeDelayExecution, KeGetRecentTimeCounter,
      State.emit]
    split
    · rfl
    · split
      · omega
      · rfl
  | succ n ih =>
    rintro s ⟨j, h1, h2, h3⟩
    rw [waitLoop]
    simp only [PsGetProcessCount, KeDelayExecution, KeGetRecentTimeCounter, State.emit]
    split
    · rfl
    · split
      · rename_i ht
        apply ih
        refine ⟨j, ?_, ?_, h3⟩
        · show s.counterReads + 1 ≤ j
          rcases Nat.eq_or_lt_of_le h1 with h | h
          · subst h; omega
          · omega
        · show j ≤ s.counterReads + 1 + n
          omega
      · rfl

theorem waitLoop_counterReads (env : Env) (ph : Phase) (Timeout : Nat) :
    ∀ (fuel : Nat) (s : State),
      (waitLoop env ph Timeout fuel s).2.counterReads ≤ s.counterReads + fuel := by
  intro fuel
  induction fuel with
  | zero => intro s; simp [waitLoop]
  | succ n ih =>
    intro s
    simp only [waitLoop, PsGetProcessCount, KeDelayExecution, KeGetRecentTimeCounter,
      State.emit]
    split
    · show s.counterReads ≤ _; omega
    · split
      · refine le_trans (ih _) ?_
        show s.counterReads + 1 + n ≤ _
        omega
      · show s.counterReads + 1 ≤ _; omega

theorem waitPhase_leaves (env : Env) (ph : Phase) (n : Nat) (s : State)
    (h : ∃ j, s.counterReads < j ∧ j ≤ s.counterReads + n + 1 ∧
      deadline (env.counterAt s.counterReads) env.frequency < env.counterAt j) :
    (waitPhase env ph env.frequency (n + 1) s).1 = true ∧
    (waitPhase env ph env.frequency (n + 1) s).2.counterReads ≤ s.counterReads + n + 2 ∧
    ∀ k, waitPhase env ph env.frequency (n + 1 + k) s =
      waitPhase env ph env.frequency (n + 1) s := by
  obtain ⟨j, hj, hjn, hlt⟩ := h
  have hleft := waitLoop_leaves env ph (deadline (env.counterAt s.counterReads) env.frequency) n
    ⟨s.trace ++ [.KeGetRecentTimeCounter ph (env.counterAt s.counterReads)],
      s.counterReads + 1, s.censusPolls, s.signalCalls⟩
    ⟨j, by show s.counterReads + 1 ≤ j; omega, by show j ≤ s.counterReads + 1 + n; omega, hlt⟩
  refine ⟨?_, ?_, ?_⟩
  · simp only [waitPhase, KeGetRecentTimeCounter]
    exact hleft
  · simp only [waitPhase, KeGetRecentTimeCounter]
    refine le_trans (waitLoop_counterReads env ph _ (n + 1) _) ?_
    show s.counterReads + 1 + (n + 1) ≤ _
    omega
  · intro k
    simp only [waitPhase, KeGetRecentTimeCounter]
    exact waitLoop_stable env ph _ (n + 1) _ hleft k

theorem counter_add_le (env : Env) (hmono : ∀ k, env.counter k < env.counter (k + 1))
    (k : Nat) : ∀ m, env.counter k + m ≤ env.counter (k + m) := by
  intro m
  induction m with
  | zero => simp
  | succ m ih =>
    have := hmono (k + m)
    rw [show k + (m + 1) = k + m + 1 from rfl]
    omega

theorem deadline_passed (env : Env) (hadv : CounterAdvances env) (i : Nat)
    (hi : i ≤ RESET_SYSTEM_PROCESS_SIGNAL_TIMEOUT * env.frequency + 2) :
    deadline (env.counterAt i) env.frequency <
      env.counterAt (i + RESET_SYSTEM_PROCESS_SIGNAL_TIMEOUT * env.frequency + 1) := by
  obtain ⟨hmono, hbound⟩ := hadv
  unfold RESET_SYSTEM_PROCESS_SIGNAL_TIMEOUT at hi hbound ⊢
  generalize env.frequency = F at hi hbound ⊢
  have hle : ∀ k, k ≤ 2 * (30 * F + 2) → env.counter k ≤ env.counter (2 * (30 * F + 2)) := by
    intro k hk
    have := counter_add_le env hmono k (2 * (30 * F + 2) - k)
    rw [Nat.add_sub_cancel' hk] at this
    omega
  have h1 := hle i (by omega)
  have h2 := hle (i + 30 * F + 1) (by omega)
  have h3 := counter_add_le env hmono i (30 * F + 1)
  rw [show i + (30 * F + 1) = i + 30 * F + 1 from rfl] at h3
  unfold deadline Env.counterAt RESET_SYSTEM_PROCESS_SIGNAL_TIMEOUT
  rw [Nat.mod_eq_of_lt (show env.counter i < 2 ^ 64 by omega),
    Nat.mod_eq_of_lt (show env.counter (i + 30 * F + 1) < 2 ^ 64 by omega),
    Nat.mod_eq_of_lt (show F * 30 < 2 ^ 64 by omega),
    Nat.mod_eq_of_lt (show env.counter i + F * 30 < 2 ^ 64 by omega)]
  omega

theorem forcedPhase_leaves (env : Env) (fuel : Nat) (s : State)
    (h : (waitPhase env .forced env.frequency fuel
      ⟨s.trace ++ [.PsGetProcessCount (.afterWait .polite) (env.censusAt s.censusPolls)] ++
        [.RtlDebugPrint (.stillAlive (ulongPred (env.censusAt s.censusPolls)))] ++
        [.PsSignalAllProcesses true .SIGNAL_KILL (env.signal s.signalCalls)],
        s.counterReads, s.censusPolls + 1, s.signalCalls + 1⟩).1 = true) :
    (forcedPhase env env.frequency fuel s).1 ≠ none := by
  unfold forcedPhase
  simp only [PsGetProcessCount, RtlDebugPrint, PsSignalAllProcesses, State.emit]
  split
  · generalize waitPhase env .forced env.frequency fuel _ = r at h
    obtain ⟨left, s2⟩ := r
    simp only at h
    subst h
    simp only [if_true]
    split <;> simp
  · simp

/-- When the counter advances without wrapping, a run with a valid reset type
leaves both wait loops: once each loop is allowed
`RESET_SYSTEM_PROCESS_SIGNAL_TIMEOUT * Frequency + 1` iterations, the run is
not left waiting. -/
theorem KeResetSystem_leaves (K : StatusCodes) (env : Env) (ResetType : SYSTEM_RESET_TYPE)
    (hv : ValidResetType ResetType) (hadv : CounterAdvances env) :
    ∀ k, (KeResetSystem K env
      (RESET_SYSTEM_PROCESS_SIGNAL_TIMEOUT * env.frequency + 1 + k) ResetType).1 ≠
        .stillWaiting := by
  obtain ⟨desc, hd⟩ := resetDescription_valid ResetType hv
  generalize hn : RESET_SYSTEM_PROCESS_SIGNAL_TIMEOUT * env.frequency = n
  -- the polite phase
  have hpol : ∀ s, s.counterReads = 0 →
      (politePhase K env env.frequency (n + 1) s).1 = true ∧
      (politePhase K env env.frequency (n + 1) s).2.counterReads ≤ n + 2 ∧
      ∀ k, politePhase K env env.frequency (n + 1 + k) s =
        politePhase K env env.frequency (n + 1) s := by
    intro s hs
    unfold politePhase
    simp only [PsSignalAllProcesses]
    cases K.KSUCCESS (env.signal s.signalCalls)
    · simp [hs]
    · simp only [if_true]
      have h := waitPhase_leaves env .polite n
        ⟨s.trace ++ [.PsSignalAllProcesses true .SIGNAL_REQUEST_TERMINATION
          (env.signal s.signalCalls)], s.counterReads, s.censusPolls, s.signalCalls + 1⟩
        ⟨s.counterReads + n + 1, by show s.counterReads < _; omega,
          by show _ ≤ s.counterReads + n + 1; omega, by
            have := deadline_passed env hadv s.counterReads (by omega)
            rw [hn] at this
            exact this⟩
      refine ⟨h.1, ?_, h.2.2⟩
      have := h.2.1
      simp only at this
      omega
  obtain ⟨hleft0, hreads0, hstab0⟩ := hpol
    ⟨[] ++ [.HlQueryTimeCounterFrequency env.frequency] ++ [.RtlDebugPrint (.goingDown desc)],
      0, 0, 0⟩ rfl
  generalize hs1 : politePhase K env env.frequency (n + 1) _ = r1 at hleft0 hreads0 hstab0
  obtain ⟨left1, s1⟩ := r1
  simp only at hleft0 hreads0
  subst hleft0
  obtain ⟨hleft1, -, hstab1⟩ := waitPhase_leaves env .forced n
    ⟨s1.trace ++ [.PsGetProcessCount (.afterWait .polite) (env.censusAt s1.censusPolls)] ++
        [.RtlDebugPrint (.stillAlive (ulongPred (env.censusAt s1.censusPolls)))] ++
        [.PsSignalAllProcesses true .SIGNAL_KILL (env.signal s1.signalCalls)],
        s1.counterReads, s1.censusPolls + 1, s1.signalCalls + 1⟩
    ⟨s1.counterReads + n + 1, by show s1.counterReads < _; omega,
      by show _ ≤ s1.counterReads + n + 1; omega, by
        have := deadline_passed env hadv s1.counterReads (by omega)
        rw [hn] at this
        exact this⟩
  intro k
  have hf := forcedPhase_leaves env (n + 1 + k) s1 (by rw [hstab1]; exact hleft1)
  unfold KeResetSystem
  simp only [hd, HlQueryTimeCounterFrequency, RtlDebugPrint, State.emit, State.start]
  rw [hstab0 k]
  simp only [if_true]
  generalize forcedPhase env env.frequency (n + 1 + k) s1 = r2 at hf
  obtain ⟨o2, s2⟩ := r2
  cases o2 with
  | none => simp at hf
  | some pc =>
    simp only
    rw [(resetTail_shape K env ResetType pc s2).1]
    exact tailOutcome_ne_stillWaiting env ResetType

theorem validResetType_iff (ResetType : Nat) :
    ValidResetType ResetType ↔
      ¬ (ResetType = SystemResetInvalid ∨ ResetType ≥ SystemResetTypeCount) := by
  show (ResetType = 2 ∨ ResetType = 1 ∨ ResetType = 3) ↔ ¬ (ResetType = 0 ∨ ResetType ≥ 4)
  omega

theorem KeSysResetSystem_invalid (K : StatusCodes) (caller : Caller)
    (ResetType : SYSTEM_RESET_TYPE) (hbad : ¬ ValidResetType ResetType) :
    KeSysResetSystem K caller ResetType =
      ⟨K.STATUS_INVALID_PARAMETER, K.STATUS_INVALID_PARAMETER, []⟩ := by
  have h : ResetType = SystemResetInvalid ∨ ResetType ≥ SystemResetTypeCount :=
    not_not.1 (fun h => hbad ((validResetType_iff ResetType).2 h))
  simp [KeSysResetSystem, h]

/-- C1: for every reset type other than warm, shutdown and cold, and for every
caller, `KeSysResetSystem` returns `STATUS_INVALID_PARAMETER` (and stores it in
the parameters) without calling `PsCheckPermission` and without queueing a
work item, so that the worker makes no call at all: no signal is sent. -/
theorem C1_invalid_type_rejected (K : StatusCodes) (caller : Caller) (env : Env)
    (fuel : Nat) (ResetType : SYSTEM_RESET_TYPE) (hbad : ¬ ValidResetType ResetType) :
    (KeSysResetSystem K caller ResetType).Status = K.STATUS_INVALID_PARAMETER ∧
    (KeSysResetSystem K caller ResetType).ParametersStatus = K.STATUS_INVALID_PARAMETER ∧
    (KeSysResetSystem K caller ResetType).calls = [] ∧
    workerTrace K env fuel (KeSysResetSystem K caller ResetType).calls = [] := by
  rw [KeSysResetSystem_invalid K caller ResetType hbad]
  simp [workerTrace]

/-- C1 at the out-of-range reset type seven, for a caller that may not reboot. -/
theorem C1_invalid_type_rejected_witness :
    ¬ ValidResetType 7 ∧
    (KeSysResetSystem sampleCodes deniedCaller 7).Status =
      sampleCodes.STATUS_INVALID_PARAMETER ∧
    (KeSysResetSystem sampleCodes deniedCaller 7).ParametersStatus =
      sampleCodes.STATUS_INVALID_PARAMETER ∧
    (KeSysResetSystem sampleCodes deniedCaller 7).calls = [] ∧
    workerTrace sampleCodes quietEnv 1 (KeSysResetSystem sampleCodes deniedCaller 7).calls = [] :=
  ⟨by decide, C1_invalid_type_rejected sampleCodes deniedCaller quietEnv 1 7 (by decide)⟩

/-- C2, as stated, fails: a caller without the reboot permission who asks for
the invalid reset type gets `STATUS_INVALID_PARAMETER`, which is not the
permission-denied status; the permission is not even checked. -/
theorem C2_counterexample :
    sampleCodes.KSUCCESS deniedCaller.permission = false ∧
    deniedCaller.permission = sampleCodes.STATUS_PERMISSION_DENIED ∧
    (KeSysResetSystem sampleCodes deniedCaller SystemResetInvalid).Status =
      sampleCodes.STATUS_INVALID_PARAMETER ∧
    (KeSysResetSystem sampleCodes deniedCaller SystemResetInvalid).Status ≠
      sampleCodes.STATUS_PERMISSION_DENIED ∧
    (KeSysResetSystem sampleCodes deniedCaller SystemResetInvalid).calls = [] := by
  decide

/-- C2, amended: for every caller for whom the reboot permission check fails,
`KeSysResetSystem` returns the failing status of `PsCheckPermission` when the
reset type is warm, shutdown or cold, and `STATUS_INVALID_PARAMETER` when it
is not; in both cases no work item is queued, so the worker makes no call: no
census poll and no signal. -/
theorem C2_denied_caller (K : StatusCodes) (caller : Caller) (env : Env) (fuel : Nat)
    (ResetType : SYSTEM_RESET_TYPE) (hdenied : K.KSUCCESS caller.permission = false) :
    (ValidResetType ResetType →
      (KeSysResetSystem K caller ResetType).Status = caller.permission ∧
      (KeSysResetSystem K caller ResetType).ParametersStatus = caller.permission ∧
      (KeSysResetSystem K caller ResetType).calls = [.PsCheckPermission caller.permission]) ∧
    (¬ ValidResetType ResetType →
      (KeSysResetSystem K caller ResetType).Status = K.STATUS_INVALID_PARAMETER ∧
      (KeSysResetSystem K caller ResetType).calls = []) ∧
    (∀ Parameter Status, SysCall.KeCreateAndQueueWorkItem Parameter Status ∉
      (KeSysResetSystem K caller ResetType).calls) ∧
    workerTrace K env fuel (KeSysResetSystem K caller ResetType).calls = [] := by
  by_cases hv : ValidResetType ResetType
  · have h : ¬ (ResetType = SystemResetInvalid ∨ ResetType ≥ SystemResetTypeCount) :=
      (validResetType_iff ResetType).1 hv
    simp [KeSysResetSystem, h, hdenied, hv, workerTrace]
  · rw [KeSysResetSystem_invalid K caller ResetType hv]
    simp [hv, workerTrace]

/-- C2, amended, at a cold reset asked by a caller that may not reboot. -/
theorem C2_denied_caller_witness :
    sampleCodes.KSUCCESS deniedCaller.permission = false ∧
    (KeSysResetSystem sampleCodes deniedCaller SystemResetCold).Status =
      sampleCodes.STATUS_PERMISSION_DENIED ∧
    workerTrace sampleCodes quietEnv 1
      (KeSysResetSystem sampleCodes deniedCaller SystemResetCold).calls = [] :=
  ⟨by decide,
    ((C2_denied_caller sampleCodes deniedCaller quietEnv 1 SystemResetCold (by decide)).1
      (by decide)).1,
    (C2_denied_caller sampleCodes deniedCaller quietEnv 1 SystemResetCold (by decide)).2.2.2⟩

/-- C3, as stated, fails: when the caller may reboot and
`KeCreateAndQueueWorkItem` fails, its status is handed to the caller as it
is, and it is none of success, invalid parameter and permission denied. -/
theorem C3_counterexample :
    (KeSysResetSystem sampleCodes unluckyCaller SystemResetWarm).Status =
      sampleInsufficientResources ∧
    (KeSysResetSystem sampleCodes unluckyCaller SystemResetWarm).Status ≠
      sampleCodes.STATUS_SUCCESS ∧
    (KeSysResetSystem sampleCodes unluckyCaller SystemResetWarm).Status ≠
      sampleCodes.STATUS_INVALID_PARAMETER ∧
    (KeSysResetSystem sampleCodes unluckyCaller SystemResetWarm).Status ≠
      sampleCodes.STATUS_PERMISSION_DENIED := by
  decide

/-- C3, amended: for every reset type, every permission-check result and
every result of the work-queue call, the status `KeSysResetSystem` returns is
`STATUS_INVALID_PARAMETER` (reset type not valid), or the failing status of
`PsCheckPermission`, or else the status of `KeCreateAndQueueWorkItem`,
whatever that status is. -/
theorem C3_status_surfaced (K : StatusCodes) (caller : Caller)
    (ResetType : SYSTEM_RESET_TYPE) :
    (¬ ValidResetType ResetType ∧
      (KeSysResetSystem K caller ResetType).Status = K.STATUS_INVALID_PARAMETER) ∨
    (ValidResetType ResetType ∧ K.KSUCCESS caller.permission = false ∧
      (KeSysResetSystem K caller ResetType).Status = caller.permission) ∨
    (ValidResetType ResetType ∧ K.KSUCCESS caller.permission = true ∧
      (KeSysResetSystem K caller ResetType).Status = caller.queue) := by
  by_cases hv : ValidResetType ResetType
  · have h : ¬ (ResetType = SystemResetInvalid ∨ ResetType ≥ SystemResetTypeCount) :=
      (validResetType_iff ResetType).1 hv
    cases hk : K.KSUCCESS caller.permission <;> simp [KeSysResetSystem, h, hk, hv]
  · have h : ResetType = SystemResetInvalid ∨ ResetType ≥ SystemResetTypeCount :=
      not_not.1 (fun h => hv ((validResetType_iff ResetType).2 h))
    simp [KeSysResetSystem, h, hv]

/-! ## The orchestrator -/

theorem filter_wait (w : List Event) (ph : Phase) (p : Event → Bool)
    (hin : ∀ e ∈ w, e.inPhase ph = true) (hp : ∀ e, e.inPhase ph = true → p e = false) :
    w.filter p = [] := by
  rw [List.filter_eq_nil_iff]
  intro e he
  simp [hp e (hin e he)]

theorem isKill_of_inPhase (ph : Phase) (e : Event) (h : e.inPhase ph = true) :
    e.isKill = false := by
  cases e <;> simp_all [Event.inPhase, Event.isKill]

theorem isSignal_of_inPhase (ph : Phase) (e : Event) (h : e.inPhase ph = true) :
    e.isSignal = false := by
  cases e <;> simp_all [Event.inPhase, Event.isSignal]

theorem afterWait_not_inPhase (ph q : Phase) (c : Nat) (w : List Event)
    (hin : ∀ e ∈ w, e.inPhase ph = true) :
    Event.PsGetProcessCount (.afterWait q) c ∉ w := by
  intro h
  have := hin _ h
  simp [Event.inPhase] at this

theorem afterWait_not_tail (K : StatusCodes) (env : Env) (ResetType : SYSTEM_RESET_TYPE)
    (pc f : Nat) (q : Phase) (c : Nat) :
    Event.PsGetProcessCount (.afterWait q) c ∉ tailEvents K env ResetType pc f := by
  unfold tailEvents
  cases env.reset ResetType <;> cases K.KSUCCESS env.flush <;>
    by_cases h1 : pc ≤ 1 <;> by_cases h2 : f = 1 <;> simp [h1, h2]

theorem filter_isKill_tail (K : StatusCodes) (env : Env) (ResetType : SYSTEM_RESET_TYPE)
    (pc f : Nat) : (tailEvents K env ResetType pc f).filter Event.isKill = [] := by
  unfold tailEvents
  cases env.reset ResetType <;> cases K.KSUCCESS env.flush <;>
    by_cases h1 : pc ≤ 1 <;> by_cases h2 : f = 1 <;> simp [h1, h2, Event.isKill]

theorem filter_isSignal_tail (K : StatusCodes) (env : Env) (ResetType : SYSTEM_RESET_TYPE)
    (pc f : Nat) : (tailEvents K env ResetType pc f).filter Event.isSignal = [] := by
  unfold tailEvents
  cases env.reset ResetType <;> cases K.KSUCCESS env.flush <;>
    by_cases h1 : pc ≤ 1 <;> by_cases h2 : f = 1 <;> simp [h1, h2, Event.isSignal]

theorem isTailCall_of_inPhase (ph : Phase) (e : Event) (h : e.inPhase ph = true) :
    e.isTailCall = false := by
  cases e <;> simp_all [Event.inPhase, Event.isTailCall, Event.isFlush, Event.isFinalCheck,
    Event.isDebuggerOrReset]
  rename_i site _
  cases site <;> simp_all [Event.inPhase, Event.isFinalCheck]

theorem survivedKill_of_inPhase (ph : Phase) (e : Event) (h : e.inPhase ph = true) :
    e.survivedKill = false := by
  cases e <;> simp_all [Event.inPhase, Event.survivedKill]
  rename_i site _
  cases site <;> simp_all [Event.inPhase, Event.survivedKill]

theorem all_of_inPhase (w : List Event) (ph : Phase) (p : Event → Bool)
    (hin : ∀ e ∈ w, e.inPhase ph = true) (hp : ∀ e, e.inPhase ph = true → p e = false) :
    ∀ e ∈ w, p e = false :=
  fun e he => hp e (hin e he)

theorem any_of_inPhase (w : List Event) (ph : Phase) (p : Event → Bool)
    (hin : ∀ e ∈ w, e.inPhase ph = true) (hp : ∀ e, e.inPhase ph = true → p e = false) :
    w.any p = false := by
  rw [List.any_eq_false]
  intro e he
  simp [hp e (hin e he)]

theorem survivedKill_tail (K : StatusCodes) (env : Env) (ResetType : SYSTEM_RESET_TYPE)
    (pc f : Nat) : (tailEvents K env ResetType pc f).any Event.survivedKill = false := by
  unfold tailEvents
  cases env.reset ResetType <;> cases K.KSUCCESS env.flush <;>
    by_cases h1 : pc ≤ 1 <;> by_cases h2 : f = 1 <;> simp [h1, h2, Event.survivedKill]

/-- A run that is still waiting has made none of the calls of lines 198-225. -/
theorem KeResetSystem_waiting (K : StatusCodes) (env : Env) (fuel : Nat)
    (ResetType : SYSTEM_RESET_TYPE) (hv : ValidResetType ResetType)
    (hw : (KeResetSystem K env fuel ResetType).1 = .stillWaiting) :
    ∀ e ∈ (KeResetSystem K env fuel ResetType).2.trace, e.isTailCall = false := by
  obtain ⟨desc, w1, w2, c1, c2, f, hin1, hin2, -, hcase⟩ :=
    KeResetSystem_shape K env fuel ResetType hv
  have hw1 := all_of_inPhase w1 .polite _ hin1 (isTailCall_of_inPhase .polite)
  have hw2 := all_of_inPhase w2 .forced _ hin2 (isTailCall_of_inPhase .forced)
  have hne := tailOutcome_ne_stillWaiting env ResetType
  rcases hcase with ⟨-, -, htr⟩ | ⟨-, ho, -⟩ | ⟨-, -, htr⟩ | ⟨-, ho, -⟩
  · rw [htr]
    intro e he
    simp only [headEvents, List.mem_append, List.mem_cons, List.mem_singleton] at he
    rcases he with (rfl | rfl | rfl | h) | h
    · rfl
    · rfl
    · rfl
    · cases h
    · exact hw1 e h
  · rw [ho] at hw; exact absurd hw hne
  · rw [htr]
    intro e he
    simp only [headEvents, killEvents, List.mem_append, List.mem_cons,
      List.mem_singleton] at he
    rcases he with (((rfl | rfl | rfl | h) | h) | (rfl | rfl | rfl | h)) | h
    · rfl
    · rfl
    · rfl
    · cases h
    · exact hw1 e h
    · rfl
    · rfl
    · rfl
    · cases h
    · exact hw2 e h
  · rw [ho] at hw; exact absurd hw hne

/-- A run that left its wait loops ends with the calls of lines 198-225, none
of which was made before; `pc` is the value of `ProcessCount` on line 198,
and it is above one exactly when processes survived the kill signal. -/
theorem KeResetSystem_done (K : StatusCodes) (env : Env) (fuel : Nat)
    (ResetType : SYSTEM_RESET_TYPE) (hv : ValidResetType ResetType)
    (hd : (KeResetSystem K env fuel ResetType).1 ≠ .stillWaiting) :
    ∃ pre pc f,
      (KeResetSystem K env fuel ResetType).2.trace = pre ++ tailEvents K env ResetType pc f ∧
      (∀ e ∈ pre, e.isTailCall = false) ∧
      (KeResetSystem K env fuel ResetType).1 = tailOutcome env ResetType ∧
      (KeResetSystem K env fuel ResetType).2.trace.any Event.survivedKill = decide (1 < pc) := by
  obtain ⟨desc, w1, w2, c1, c2, f, hin1, hin2, -, hcase⟩ :=
    KeResetSystem_shape K env fuel ResetType hv
  have hw1 := all_of_inPhase w1 .polite _ hin1 (isTailCall_of_inPhase .polite)
  have hw2 := all_of_inPhase w2 .forced _ hin2 (isTailCall_of_inPhase .forced)
  have hs1 := any_of_inPhase w1 .polite _ hin1 (survivedKill_of_inPhase .polite)
  have hs2 := any_of_inPhase w2 .forced _ hin2 (survivedKill_of_inPhase .forced)
  rcases hcase with ⟨ho, -, -⟩ | ⟨hc, ho, htr⟩ | ⟨-, ho, -⟩ | ⟨hc, ho, htr⟩
  · exact absurd ho hd
  · refine ⟨headEvents env desc ++ w1 ++ [.PsGetProcessCount (.afterWait .polite) c1], c1, f,
      htr, ?_, ho, ?_⟩
    · intro e he
      simp only [headEvents, List.mem_append, List.mem_cons, List.mem_singleton] at he
      rcases he with ((rfl | rfl | rfl | h) | h) | (rfl | h)
      · rfl
      · rfl
      · rfl
      · cases h
      · exact hw1 e h
      · rfl
      · cases h
    · rw [htr]
      simp [List.any_append, headEvents, hs1, survivedKill_tail, Event.survivedKill, hc]
  · exact absurd ho hd
  · refine ⟨headEvents env desc ++ w1 ++ killEvents env c1 ++ w2 ++ afterKillEvents c2, c2, f,
      htr, ?_, ho, ?_⟩
    · intro e he
      simp only [headEvents, killEvents, List.mem_append, List.mem_cons,
        List.mem_singleton] at he
      rcases he with ((((rfl | rfl | rfl | h) | h) | (rfl | rfl | rfl | h)) | h) | h
      · rfl
      · rfl
      · rfl
      · cases h
      · exact hw1 e h
      · rfl
      · rfl
      · rfl
      · cases h
      · exact hw2 e h
      · unfold afterKillEvents at h
        split at h
        · simp at h; subst h; rfl
        · simp at h
          rcases h with rfl | rfl | rfl <;> rfl
    · rw [htr]
      have h5 : (afterKillEvents c2).any Event.survivedKill = decide (1 < c2) := by
        unfold afterKillEvents
        split
        · rename_i h; subst h; simp [Event.survivedKill]
        · simp [Event.survivedKill]
      simp [List.any_append, headEvents, killEvents, hs1, hs2, survivedKill_tail, h5,
        Event.survivedKill]

/-- C4, as stated, fails: the polite broadcast succeeds and the first poll of
the polite wait loop reads one, so the loop is left at once; the poll that
follows the loop reads two, and the kill signal is broadcast. -/
theorem C4_counterexample :
    ValidResetType SystemResetWarm ∧
    sampleCodes.KSUCCESS (lateProcessEnv.signal 0) = true ∧
    Event.PsGetProcessCount (.inLoop .polite) 1 ∈
      (KeResetSystem sampleCodes lateProcessEnv 1 SystemResetWarm).2.trace ∧
    (KeResetSystem sampleCodes lateProcessEnv 1 SystemResetWarm).1 = .systemReset ∧
    (KeResetSystem sampleCodes lateProcessEnv 1 SystemResetWarm).2.trace.countP
      Event.isKill = 1 := by
  decide

/-- C4, amended: in every run of `KeResetSystem` with a valid reset type,
whether the forced-signal phase is entered is decided by the census poll made
right after the polite wait (line 161), not by the polls of the wait loop:
when that poll reads exactly one the run issues no `SIGNAL_KILL` broadcast,
and when it reads anything else the run issues one. -/
theorem C4_kill_decided_by_poll_after_wait (K : StatusCodes) (env : Env) (fuel : Nat)
    (ResetType : SYSTEM_RESET_TYPE) (hv : ValidResetType ResetType) (c : Nat)
    (hpoll : Event.PsGetProcessCount (.afterWait .polite) c ∈
      (KeResetSystem K env fuel ResetType).2.trace) :
    (KeResetSystem K env fuel ResetType).2.trace.countP Event.isKill =
      if c = 1 then 0 else 1 := by
  obtain ⟨desc, w1, w2, c1, c2, f, hin1, hin2, -, hcase⟩ :=
    KeResetSystem_shape K env fuel ResetType hv
  have hw1 := filter_wait w1 .polite Event.isKill hin1 (isKill_of_inPhase .polite)
  have hw2 := filter_wait w2 .forced Event.isKill hin2 (isKill_of_inPhase .forced)
  have hn1 := afterWait_not_inPhase .polite .polite c w1 hin1
  have hn2 := afterWait_not_inPhase .forced .polite c w2 hin2
  have hn3 := fun pc => afterWait_not_tail K env ResetType pc f .polite c
  have ht := fun pc => filter_isKill_tail K env ResetType pc f
  rw [List.countP_eq_length_filter]
  rcases hcase with ⟨-, -, htr⟩ | ⟨hc, -, htr⟩ | ⟨hc, -, htr⟩ | ⟨hc, -, htr⟩
  · rw [htr] at hpoll
    simp [headEvents, hn1] at hpoll
  · rw [htr] at hpoll ⊢
    simp [headEvents, hn1, hn3] at hpoll
    subst hpoll
    simp [List.filter_append, headEvents, hw1, ht, hc, Event.isKill]
  · rw [htr] at hpoll ⊢
    simp [headEvents, killEvents, hn1, hn2] at hpoll
    subst hpoll
    simp [List.filter_append, headEvents, killEvents, hw1, hw2, hc, Event.isKill]
  · rw [htr] at hpoll ⊢
    have hn4 : Event.PsGetProcessCount (.afterWait .polite) c ∉ afterKillEvents c2 := by
      unfold afterKillEvents; split <;> simp
    have hk4 : (afterKillEvents c2).filter Event.isKill = [] := by
      unfold afterKillEvents; split <;> simp [Event.isKill]
    simp [headEvents, killEvents, hn1, hn2, hn3, hn4] at hpoll
    subst hpoll
    simp [List.filter_append, headEvents, killEvents, hw1, hw2, ht, hk4, hc, Event.isKill]

/-- C4, amended, at a warm reset on a machine where only the kernel process is alive. -/
theorem C4_kill_decided_by_poll_after_wait_witness :
    ValidResetType SystemResetWarm ∧
    Event.PsGetProcessCount (.afterWait .polite) 1 ∈
      (KeResetSystem sampleCodes quietEnv 1 SystemResetWarm).2.trace ∧
    (KeResetSystem sampleCodes quietEnv 1 SystemResetWarm).2.trace.countP Event.isKill =
      if 1 = 1 then 0 else 1 :=
  ⟨by decide, by decide,
    C4_kill_decided_by_poll_after_wait sampleCodes quietEnv 1 SystemResetWarm (by decide) 1
      (by decide)⟩

/-- C5: in every run of `KeResetSystem` with a valid reset type in which every
census poll of the polite wait loop and the poll after the polite wait read
more than one, the signal broadcasts of the whole run are exactly two, the
termination request and then the kill signal: the kill signal is broadcast
exactly once, after the polite broadcast. -/
theorem C5_exactly_one_kill (K : StatusCodes) (env : Env) (fuel : Nat)
    (ResetType : SYSTEM_RESET_TYPE) (hv : ValidResetType ResetType)
    (_hloop : ∀ n, Event.PsGetProcessCount (.inLoop .polite) n ∈
      (KeResetSystem K env fuel ResetType).2.trace → 1 < n)
    (hafter : ∃ n, 1 < n ∧ Event.PsGetProcessCount (.afterWait .polite) n ∈
      (KeResetSystem K env fuel ResetType).2.trace) :
    (KeResetSystem K env fuel ResetType).2.trace.filter Event.isSignal =
      [.PsSignalAllProcesses true .SIGNAL_REQUEST_TERMINATION (env.signal 0),
       .PsSignalAllProcesses true .SIGNAL_KILL (env.signal 1)] ∧
    (KeResetSystem K env fuel ResetType).2.trace.countP Event.isKill = 1 := by
  obtain ⟨c, hc1, hpoll⟩ := hafter
  obtain ⟨desc, w1, w2, c1, c2, f, hin1, hin2, -, hcase⟩ :=
    KeResetSystem_shape K env fuel ResetType hv
  have hw1 := filter_wait w1 .polite Event.isSignal hin1 (isSignal_of_inPhase .polite)
  have hw2 := filter_wait w2 .forced Event.isSignal hin2 (isSignal_of_inPhase .forced)
  have hk1 := filter_wait w1 .polite Event.isKill hin1 (isKill_of_inPhase .polite)
  have hk2 := filter_wait w2 .forced Event.isKill hin2 (isKill_of_inPhase .forced)
  have hn1 := afterWait_not_inPhase .polite .polite c w1 hin1
  have hn2 := afterWait_not_inPhase .forced .polite c w2 hin2
  have hn3 := fun pc => afterWait_not_tail K env ResetType pc f .polite c
  have ht := fun pc => filter_isSignal_tail K env ResetType pc f
  have htk := fun pc => filter_isKill_tail K env ResetType pc f
  rw [List.countP_eq_length_filter]
  rcases hcase with ⟨-, -, htr⟩ | ⟨hc, -, htr⟩ | ⟨hc, -, htr⟩ | ⟨hc, -, htr⟩
  · rw [htr] at hpoll
    simp [headEvents, hn1] at hpoll
  · rw [htr] at hpoll
    simp [headEvents, hn1, hn3] at hpoll
    omega
  · rw [htr]
    simp [List.filter_append, headEvents, killEvents, hw1, hw2, hk1, hk2, Event.isSignal,
      Event.isKill]
  · rw [htr]
    have hs4 : (afterKillEvents c2).filter Event.isSignal = [] := by
      unfold afterKillEvents; split <;> simp [Event.isSignal]
    have hk4 : (afterKillEvents c2).filter Event.isKill = [] := by
      unfold afterKillEvents; split <;> simp [Event.isKill]
    simp [List.filter_append, headEvents, killEvents, hw1, hw2, hk1, hk2, ht, htk, hs4, hk4,
      Event.isSignal, Event.isKill]

/-- C5 at a cold reset on a machine where one process survives both signals. -/
theorem C5_exactly_one_kill_witness :
    ValidResetType SystemResetCold ∧
    (∀ n, Event.PsGetProcessCount (.inLoop .polite) n ∈
      (KeResetSystem sampleCodes stubbornEnv 1 SystemResetCold).2.trace → 1 < n) ∧
    (∃ n, 1 < n ∧ Event.PsGetProcessCount (.afterWait .polite) n ∈
      (KeResetSystem sampleCodes stubbornEnv 1 SystemResetCold).2.trace) ∧
    (KeResetSystem sampleCodes stubbornEnv 1 SystemResetCold).2.trace.filter Event.isSignal =
      [.PsSignalAllProcesses true .SIGNAL_REQUEST_TERMINATION (stubbornEnv.signal 0),
       .PsSignalAllProcesses true .SIGNAL_KILL (stubbornEnv.signal 1)] ∧
    (KeResetSystem sampleCodes stubbornEnv 1 SystemResetCold).2.trace.countP Event.isKill = 1 :=
  have hloop : ∀ n, Event.PsGetProcessCount (.inLoop .polite) n ∈
      (KeResetSystem sampleCodes stubbornEnv 1 SystemResetCold).2.trace → 1 < n := by
    intro n hn
    have htrace : (KeResetSystem sampleCodes stubbornEnv 1 SystemResetCold).2.trace.filter
        (fun e => e.isCensus) =
        [.PsGetProcessCount (.inLoop .polite) 2, .PsGetProcessCount (.afterWait .polite) 2,
         .PsGetProcessCount (.inLoop .forced) 2, .PsGetProcessCount (.afterWait .forced) 2] := by
      decide
    have hmem : Event.PsGetProcessCount (.inLoop .polite) n ∈
        (KeResetSystem sampleCodes stubbornEnv 1 SystemResetCold).2.trace.filter
          (fun e => e.isCensus) := List.mem_filter.2 ⟨hn, rfl⟩
    rw [htrace] at hmem
    simp at hmem
    omega
  have hafter : ∃ n, 1 < n ∧ Event.PsGetProcessCount (.afterWait .polite) n ∈
      (KeResetSystem sampleCodes stubbornEnv 1 SystemResetCold).2.trace :=
    ⟨2, by decide, by decide⟩
  ⟨by decide, hloop, hafter,
    C5_exactly_one_kill sampleCodes stubbornEnv 1 SystemResetCold (by decide) hloop hafter⟩

theorem CounterAdvances_quietEnv : CounterAdvances quietEnv := by
  refine ⟨fun k => ?_, by decide⟩
  show 10 * k < 10 * (k + 1)
  omega

/-- C8: for every valid reset type, whenever `HlResetSystem` is called and
returns, `KeResetSystem` returns exactly the status `HlResetSystem` returned,
whatever the statuses of the signal broadcasts and of the flush were. -/
theorem C8_returns_reset_status (K : StatusCodes) (env : Env) (fuel : Nat)
    (ResetType : SYSTEM_RESET_TYPE) (hv : ValidResetType ResetType) (Status : KSTATUS)
    (hcall : Event.HlResetSystem ResetType ∈ (KeResetSystem K env fuel ResetType).2.trace)
    (hret : env.reset ResetType = some Status) :
    (KeResetSystem K env fuel ResetType).1 = .returned Status := by
  by_cases hw : (KeResetSystem K env fuel ResetType).1 = .stillWaiting
  · have h := KeResetSystem_waiting K env fuel ResetType hv hw _ hcall
    simp [Event.isTailCall, Event.isDebuggerOrReset] at h
  · obtain ⟨pre, pc, f, -, -, ho, -⟩ := KeResetSystem_done K env fuel ResetType hv hw
    rw [ho, tailOutcome, hret]

/-- C8 at a warm reset where both broadcasts, the flush and the reset fail. -/
theorem C8_returns_reset_status_witness :
    ValidResetType SystemResetWarm ∧
    sampleCodes.KSUCCESS (failingEnv.signal 0) = false ∧
    sampleCodes.KSUCCESS (failingEnv.signal 1) = false ∧
    sampleCodes.KSUCCESS failingEnv.flush = false ∧
    Event.HlResetSystem SystemResetWarm ∈
      (KeResetSystem sampleCodes failingEnv 1 SystemResetWarm).2.trace ∧
    failingEnv.reset SystemResetWarm = some sampleUnsuccessful ∧
    (KeResetSystem sampleCodes failingEnv 1 SystemResetWarm).1 =
      .returned sampleUnsuccessful :=
  ⟨by decide, by decide, by decide, by decide, by decide, by decide,
    C8_returns_reset_status sampleCodes failingEnv 1 SystemResetWarm (by decide)
      sampleUnsuccessful (by decide) (by decide)⟩

/-- C10, as stated, fails: when a process survives both signals for the full
timeouts, the calls from `IoFlush` on are the flush, `KdDisconnect`,
`HlResetSystem`, `KdConnect` and the last message: the census is not polled
between the flush and the reset. -/
theorem C10_counterexample :
    ValidResetType SystemResetCold ∧
    (KeResetSystem sampleCodes stubbornEnv 1 SystemResetCold).1 =
      .returned sampleUnsuccessful ∧
    Event.PsGetProcessCount (.afterWait .forced) 2 ∈
      (KeResetSystem sampleCodes stubbornEnv 1 SystemResetCold).2.trace ∧
    (KeResetSystem sampleCodes stubbornEnv 1 SystemResetCold).2.trace.dropWhile
        (fun e => !e.isFlush) =
      [.IoFlush 0, .KdDisconnect, .HlResetSystem SystemResetCold, .KdConnect,
       .RtlDebugPrint (.resetUnsuccessful sampleUnsuccessful)] := by
  decide

/-- C10, amended: in every run of `KeResetSystem` with a valid reset type that
leaves its wait loops, the final check is made unless processes survived the
kill signal.  When the poll after the forced wait read more than one, no
census poll is made between `IoFlush` and `KdDisconnect`; in every other run
the census is polled exactly once between them.  The wait loops are left
whenever the time counter advances without wrapping. -/
theorem C10_final_check_unless_survivors (K : StatusCodes) (env : Env)
    (ResetType : SYSTEM_RESET_TYPE) (hv : ValidResetType ResetType) :
    (∀ fuel, (KeResetSystem K env fuel ResetType).1 ≠ .stillWaiting →
      ((KeResetSystem K env fuel ResetType).2.trace.any Event.survivedKill = true →
        ((KeResetSystem K env fuel ResetType).2.trace.dropWhile (fun e => !e.isFlush)).filter
            (fun e => e.isFlush || e.isCensus || e.isDisconnect) =
          [.IoFlush env.flush, .KdDisconnect]) ∧
      ((KeResetSystem K env fuel ResetType).2.trace.any Event.survivedKill = false →
        ∃ Final,
          ((KeResetSystem K env fuel ResetType).2.trace.dropWhile
              (fun e => !e.isFlush)).filter
            (fun e => e.isFlush || e.isCensus || e.isDisconnect) =
          [.IoFlush env.flush, .PsGetProcessCount .finalCheck Final, .KdDisconnect])) ∧
    (CounterAdvances env → ∀ k, (KeResetSystem K env
      (RESET_SYSTEM_PROCESS_SIGNAL_TIMEOUT * env.frequency + 1 + k) ResetType).1 ≠
        .stillWaiting) := by
  refine ⟨fun fuel hd => ?_, KeResetSystem_leaves K env ResetType hv⟩
  obtain ⟨pre, pc, f, htr, hpre, -, hs⟩ := KeResetSystem_done K env fuel ResetType hv hd
  have hdrop : (pre ++ tailEvents K env ResetType pc f).dropWhile (fun e => !e.isFlush) =
      tailEvents K env ResetType pc f := by
    rw [List.dropWhile_append_of_pos]
    · unfold tailEvents
      simp [Event.isFlush]
    · intro e he
      have h := hpre e he
      simp only [Event.isTailCall, Bool.or_eq_false_iff] at h
      simp [h.1.1]
  rw [hs, htr, hdrop]
  constructor
  · intro hsurv
    have hpc : ¬ pc ≤ 1 := by
      have := of_decide_eq_true hsurv
      omega
    unfold tailEvents
    cases env.reset ResetType <;> cases K.KSUCCESS env.flush <;>
      simp [hpc, Event.isFlush, Event.isCensus, Event.isDisconnect]
  · intro hsurv
    have hpc : pc ≤ 1 := by
      have := of_decide_eq_false hsurv
      omega
    refine ⟨f, ?_⟩
    unfold tailEvents
    cases env.reset ResetType <;> cases K.KSUCCESS env.flush <;>
      by_cases h2 : f = 1 <;>
      simp [hpc, h2, Event.isFlush, Event.isCensus, Event.isDisconnect]

/-- C10, amended, at a warm reset on a machine where only the kernel process is alive. -/
theorem C10_final_check_unless_survivors_witness :
    ValidResetType SystemResetWarm ∧ CounterAdvances quietEnv ∧
    (KeResetSystem sampleCodes quietEnv 1 SystemResetWarm).1 ≠ .stillWaiting ∧
    (KeResetSystem sampleCodes quietEnv 1 SystemResetWarm).2.trace.any
      Event.survivedKill = false ∧
    ∃ Final,
      ((KeResetSystem sampleCodes quietEnv 1 SystemResetWarm).2.trace.dropWhile
          (fun e => !e.isFlush)).filter
        (fun e => e.isFlush || e.isCensus || e.isDisconnect) =
      [.IoFlush quietEnv.flush, .PsGetProcessCount .finalCheck Final, .KdDisconnect] :=
  ⟨by decide, CounterAdvances_quietEnv, by decide, by decide,
    ((C10_final_check_unless_survivors sampleCodes quietEnv SystemResetWarm
      (by decide)).1 1 (by decide)).2 (by decide)⟩

/-! ## Invalid reset types and the bound on a wait phase -/

/-- C11: for every reset type other than warm, shutdown and cold,
`KeResetSystem` (with `ASSERT` a no-op) returns `STATUS_INVALID_PARAMETER`
after the frequency query alone: it issues no signal broadcast, no census
poll, no delay, no flush, no debugger disconnect or connect and no
`HlResetSystem` call. -/
theorem C11_invalid_type_returns_at_once (K : StatusCodes) (env : Env) (fuel : Nat)
    (ResetType : SYSTEM_RESET_TYPE) (hbad : ¬ ValidResetType ResetType) :
    (KeResetSystem K env fuel ResetType).1 = .returned K.STATUS_INVALID_PARAMETER ∧
    (KeResetSystem K env fuel ResetType).2.trace =
      [.HlQueryTimeCounterFrequency env.frequency] ∧
    (KeResetSystem K env fuel ResetType).2.trace.filter
      (fun e => e.isSignal || e.isCensus || e.isDelay || e.isFlush ||
        e.isDebuggerOrReset) = [] := by
  have hd : resetDescription ResetType = none := by
    unfold ValidResetType at hbad
    unfold resetDescription
    rw [if_neg (fun h => hbad (Or.inl h)), if_neg (fun h => hbad (Or.inr (Or.inl h))),
      if_neg (fun h => hbad (Or.inr (Or.inr h)))]
  unfold KeResetSystem
  simp [hd, HlQueryTimeCounterFrequency, State.emit, State.start, Event.isSignal,
    Event.isCensus, Event.isDelay, Event.isFlush, Event.isDebuggerOrReset]

/-- C11 at the invalid sentinel, on a machine where a process would stay
alive. -/
theorem C11_invalid_type_returns_at_once_witness :
    ¬ ValidResetType SystemResetInvalid ∧
    (KeResetSystem sampleCodes stubbornEnv 1 SystemResetInvalid).1 =
      .returned sampleCodes.STATUS_INVALID_PARAMETER ∧
    (KeResetSystem sampleCodes stubbornEnv 1 SystemResetInvalid).2.trace =
      [.HlQueryTimeCounterFrequency stubbornEnv.frequency] ∧
    (KeResetSystem sampleCodes stubbornEnv 1 SystemResetInvalid).2.trace.filter
      (fun e => e.isSignal || e.isCensus || e.isDelay || e.isFlush ||
        e.isDebuggerOrReset) = [] :=
  ⟨by decide,
    C11_invalid_type_returns_at_once sampleCodes stubbornEnv 1 SystemResetInvalid
      (by decide)⟩

/-- The calls of a wait loop: at most one delay per iteration, none when the
first poll reads at most one, and, once the loop is left, exactly one
stopping reading, the last call. -/
theorem waitLoop_events (env : Env) (ph : Phase) (Timeout : Nat) :
    ∀ (fuel : Nat) (s : State), ∃ w,
      (waitLoop env ph Timeout fuel s).2.trace = s.trace ++ w ∧
      w.countP Event.isDelay ≤ fuel ∧
      (env.censusAt s.censusPolls ≤ 1 → w.countP Event.isDelay = 0) ∧
      ((waitLoop env ph Timeout fuel s).1 = true →
        (w.dropWhile (fun e => !e.stops Timeout)).length = 1) := by
  intro fuel
  induction fuel with
  | zero => intro s; exact ⟨[], by simp [waitLoop]⟩
  | succ n ih =>
    intro s
    simp only [waitLoop, PsGetProcessCount, KeDelayExecution, KeGetRecentTimeCounter,
      State.emit]
    by_cases hc : env.censusAt s.censusPolls ≤ 1
    · rw [if_pos hc]
      exact ⟨[.PsGetProcessCount (.inLoop ph) (env.censusAt s.censusPolls)], rfl,
        by simp [Event.isDelay], fun _ => by simp [Event.isDelay],
        fun _ => by simp [Event.stops, hc]⟩
    · rw [if_neg hc]
      by_cases ht : env.counterAt s.counterReads ≤ Timeout
      · rw [if_pos ht]
        obtain ⟨w, hw, hcount, -, hstop⟩ := ih
          ⟨s.trace ++ [.PsGetProcessCount (.inLoop ph) (env.censusAt s.censusPolls)] ++
            [.KeDelayExecution ph RESET_SYSTEM_SIGNAL_POLL_INTERVAL] ++
            [.KeGetRecentTimeCounter ph (env.counterAt s.counterReads)],
            s.counterReads + 1, s.censusPolls + 1, s.signalCalls⟩
        refine ⟨[.PsGetProcessCount (.inLoop ph) (env.censusAt s.censusPolls),
          .KeDelayExecution ph RESET_SYSTEM_SIGNAL_POLL_INTERVAL,
          .KeGetRecentTimeCounter ph (env.counterAt s.counterReads)] ++ w, ?_, ?_, ?_, ?_⟩
        · rw [hw]; simp
        · simp only [List.countP_append]
          have : [Event.PsGetProcessCount (.inLoop ph) (env.censusAt s.censusPolls),
              .KeDelayExecution ph RESET_SYSTEM_SIGNAL_POLL_INTERVAL,
              .KeGetRecentTimeCounter ph (env.counterAt s.counterReads)].countP
              Event.isDelay = 1 := by
            simp [List.countP_cons, Event.isDelay]
          omega
        · intro h; exact absurd h hc
        · intro hleft
          have h := hstop hleft
          simpa [Event.stops, hc, Nat.not_lt.2 ht] using h
      · rw [if_neg ht]
        refine ⟨[.PsGetProcessCount (.inLoop ph) (env.censusAt s.censusPolls),
          .KeDelayExecution ph RESET_SYSTEM_SIGNAL_POLL_INTERVAL,
          .KeGetRecentTimeCounter ph (env.counterAt s.counterReads)], by simp, ?_, ?_, ?_⟩
        · simp [List.countP_cons, Event.isDelay]
        · intro h; exact absurd h hc
        · intro _
          simp [Event.stops, hc, Nat.lt_of_not_le ht]

theorem counterAt_add_le (env : Env) (i n : Nat)
    (hmono : ∀ k, k ≤ n → env.counterAt (i + k) < env.counterAt (i + k + 1)) :
    ∀ m, m ≤ n + 1 → env.counterAt i + m ≤ env.counterAt (i + m) := by
  intro m
  induction m with
  | zero => intro _; simp
  | succ m ih =>
    intro hm
    have h1 := ih (by omega)
    have h2 := hmono m (by omega)
    rw [show i + (m + 1) = i + m + 1 from rfl]
    omega

/-- C12: each wait phase of `KeResetSystem` is bounded.  When the deadline,
the counter reading at the start of the phase plus thirty times the
frequency, does not overflow 64 bits and every later counter reading of the
phase is above the one before, the loop is left once it is allowed
`30 * Frequency + 1` iterations; it makes no delay when its first poll reads
at most one, its only stopping reading (a poll that reads at most one or a
counter reading above the deadline) is its last call, and it makes at most
`30 * Frequency + 1` delays. -/
theorem C12_wait_phase_bounded (env : Env) (ph : Phase) (s : State) (extra : Nat)
    (hsum : env.counterAt s.counterReads +
      RESET_SYSTEM_PROCESS_SIGNAL_TIMEOUT * env.frequency < 2 ^ 64)
    (hmono : ∀ k, k ≤ RESET_SYSTEM_PROCESS_SIGNAL_TIMEOUT * env.frequency →
      env.counterAt (s.counterReads + k) < env.counterAt (s.counterReads + k + 1)) :
    deadline (env.counterAt s.counterReads) env.frequency =
      env.counterAt s.counterReads + RESET_SYSTEM_PROCESS_SIGNAL_TIMEOUT * env.frequency ∧
    (waitPhase env ph env.frequency
      (RESET_SYSTEM_PROCESS_SIGNAL_TIMEOUT * env.frequency + 1 + extra) s).1 = true ∧
    ((waitPhase env ph env.frequency
      (RESET_SYSTEM_PROCESS_SIGNAL_TIMEOUT * env.frequency + 1 + extra) s).2.trace.drop
        s.trace.length).countP Event.isDelay ≤
      RESET_SYSTEM_PROCESS_SIGNAL_TIMEOUT * env.frequency + 1 ∧
    (env.censusAt s.censusPolls ≤ 1 →
      ((waitPhase env ph env.frequency
        (RESET_SYSTEM_PROCESS_SIGNAL_TIMEOUT * env.frequency + 1 + extra) s).2.trace.drop
          s.trace.length).countP Event.isDelay = 0) ∧
    (((waitPhase env ph env.frequency
      (RESET_SYSTEM_PROCESS_SIGNAL_TIMEOUT * env.frequency + 1 + extra) s).2.trace.drop
        s.trace.length).dropWhile
      (fun e => !e.stops (deadline (env.counterAt s.counterReads) env.frequency))).length =
      1 := by
  generalize hn : RESET_SYSTEM_PROCESS_SIGNAL_TIMEOUT * env.frequency = n at hsum hmono ⊢
  have hdl : deadline (env.counterAt s.counterReads) env.frequency =
      env.counterAt s.counterReads + n := by
    unfold deadline
    rw [Nat.mul_comm, hn, Nat.mod_eq_of_lt (show n < 2 ^ 64 by omega),
      Nat.mod_eq_of_lt hsum]
  have hchain := counterAt_add_le env s.counterReads n hmono (n + 1) (le_refl _)
  have hleave := waitPhase_leaves env ph n s
    ⟨s.counterReads + (n + 1), by omega, by omega, by rw [hdl]; omega⟩
  obtain ⟨hleft, -, hstab⟩ := hleave
  rw [hstab extra]
  refine ⟨hdl, hleft, ?_⟩
  simp only [waitPhase, KeGetRecentTimeCounter] at hleft ⊢
  obtain ⟨w, hw, hcount, hzero, hstop⟩ := waitLoop_events env ph
    (deadline (env.counterAt s.counterReads) env.frequency) (n + 1)
    ⟨s.trace ++ [.KeGetRecentTimeCounter ph (env.counterAt s.counterReads)],
      s.counterReads + 1, s.censusPolls, s.signalCalls⟩
  have hdrop : (waitLoop env ph (deadline (env.counterAt s.counterReads) env.frequency)
      (n + 1) ⟨s.trace ++ [.KeGetRecentTimeCounter ph (env.counterAt s.counterReads)],
        s.counterReads + 1, s.censusPolls, s.signalCalls⟩).2.trace.drop s.trace.length =
      .KeGetRecentTimeCounter ph (env.counterAt s.counterReads) :: w := by
    rw [hw]
    simp
  rw [hdrop]
  refine ⟨?_, ?_, ?_⟩
  · simpa [List.countP_cons, Event.isDelay] using hcount
  · intro h
    simpa [List.countP_cons, Event.isDelay] using hzero h
  · have h := hstop hleft
    have hnot : ¬ deadline (env.counterAt s.counterReads) env.frequency <
        env.counterAt s.counterReads := by rw [hdl]; omega
    simpa [Event.stops, hnot] using h

/-- C12 at the polite wait phase of a machine where a process stays alive
and the counter advances by a hundred seconds per reading: the phase is left
after a single delay. -/
theorem C12_wait_phase_bounded_witness :
    (stubbornEnv.counterAt State.start.counterReads +
      RESET_SYSTEM_PROCESS_SIGNAL_TIMEOUT * stubbornEnv.frequency < 2 ^ 64) ∧
    (∀ k, k ≤ RESET_SYSTEM_PROCESS_SIGNAL_TIMEOUT * stubbornEnv.frequency →
      stubbornEnv.counterAt (State.start.counterReads + k) <
        stubbornEnv.counterAt (State.start.counterReads + k + 1)) ∧
    ((waitPhase stubbornEnv .polite stubbornEnv.frequency
      (RESET_SYSTEM_PROCESS_SIGNAL_TIMEOUT * stubbornEnv.frequency + 1 + 0)
        State.start).2.trace.drop State.start.trace.length).countP Event.isDelay = 1 ∧
    (waitPhase stubbornEnv .polite stubbornEnv.frequency
      (RESET_SYSTEM_PROCESS_SIGNAL_TIMEOUT * stubbornEnv.frequency + 1 + 0)
        State.start).1 = true ∧
    ((waitPhase stubbornEnv .polite stubbornEnv.frequency
      (RESET_SYSTEM_PROCESS_SIGNAL_TIMEOUT * stubbornEnv.frequency + 1 + 0)
        State.start).2.trace.drop State.start.trace.length).countP Event.isDelay ≤
      RESET_SYSTEM_PROCESS_SIGNAL_TIMEOUT * stubbornEnv.frequency + 1 :=
  ⟨by decide, by decide, by decide,
    (C12_wait_phase_bounded stubbornEnv .polite State.start 0 (by decide) (by decide)).2.1,
    (C12_wait_phase_bounded stubbornEnv .polite State.start 0 (by decide)
      (by decide)).2.2.1⟩

end KeReset

namespace Mbgen

/-! ## Reading the command -/

theorem charAt_append_cons (pre : List Char) (c : Char) (rest : List Char) :
    charAt (pre ++ c :: rest) pre.length = some c := by
  unfold charAt
  rw [List.getElem?_append_right (le_refl _)]
  simp

theorem charAt_end (l : List Char) : charAt l l.length = some NUL := by
  simp [charAt]

theorem charAt_past (l : List Char) : charAt l (l.length + 1) = none := by
  unfold charAt
  rw [List.getElem?_eq_none (by omega)]
  simp

theorem nameLength_eq (N : NameClass) (hnul : N.MBGEN_IS_NAME NUL = false) :
    ∀ l : List Char, nameLength N l = some (l.takeWhile N.MBGEN_IS_NAME).length := by
  intro l
  induction l with
  | nil => simp [nameLength, hnul]
  | cons c rest ih =>
    by_cases hc : N.MBGEN_IS_NAME c = true
    · simp [nameLength, hc, ih, List.takeWhile_cons]
    · simp [nameLength, hc, List.takeWhile_cons]

theorem take_takeWhile_length (p : Char → Bool) (l : List Char) :
    l.take (l.takeWhile p).length = l.takeWhile p := by
  induction l with
  | nil => simp
  | cons c rest ih =>
    by_cases hc : p c = true
    · simp [List.takeWhile_cons, hc, ih]
    · simp [List.takeWhile_cons, hc]

theorem drop_takeWhile_length (p : Char → Bool) (l : List Char) :
    l.drop (l.takeWhile p).length = l.dropWhile p := by
  induction l with
  | nil => simp
  | cons c rest ih =>
    by_cases hc : p c = true
    · simp [List.takeWhile_cons, List.dropWhile_cons, hc, ih]
    · simp [List.takeWhile_cons, List.dropWhile_cons, hc]

theorem length_dropWhile_le (p : Char → Bool) (l : List Char) :
    (l.dropWhile p).length ≤ l.length := by
  have h := congrArg List.length (List.takeWhile_append_dropWhile p l)
  simp only [List.length_append] at h
  omega

theorem printVariable_eq (Variable : List Char) :
    printVariable Variable = makeReference Variable := by
  unfold printVariable makeReference strcasecmp MBGEN_MAKE_INPUTS MBGEN_MAKE_OUTPUT
    MBGEN_MAKE_VARIABLE
  by_cases h1 : Variable.map Char.toLower = ['i', 'n']
  · have h1' : Variable.map Char.toLower = ['i', 'n'].map Char.toLower := by
      rw [h1]; decide
    simp [h1, h1']
  · have h1' : ¬ Variable.map Char.toLower = ['i', 'n'].map Char.toLower := by
      rw [show ['i', 'n'].map Char.toLower = ['i', 'n'] by decide]; exact h1
    by_cases h2 : Variable.map Char.toLower = ['o', 'u', 't']
    · have h2' : Variable.map Char.toLower = ['o', 'u', 't'].map Char.toLower := by
        rw [h2]; decide
      simp [h1, h1', h2, h2']
    · have h2' : ¬ Variable.map Char.toLower = ['o', 'u', 't'].map Char.toLower := by
        rw [show ['o', 'u', 't'].map Char.toLower = ['o', 'u', 't'] by decide]; exact h2
      simp [h1, h1', h2, h2']

/-! ## The scan follows the rules -/

/-- The scan of a command from any cursor, with name classes where a
character that starts a name also continues one and the terminator is no
name character: it writes the text the rules give for the characters ahead
and ends at the terminator, unless a `$` is left over at the very end; then
it writes that `$` and the terminator and reads past the terminator. -/
theorem scanLoop_rules (N : NameClass)
    (hsub : ∀ c, N.MBGEN_IS_NAME0 c = true → N.MBGEN_IS_NAME c = true)
    (hnul : N.MBGEN_IS_NAME NUL = false) :
    ∀ (n : Nat) (l pre out : List Char) (fuel i : Nat) (Command : List Char),
      Command = pre ++ l → i = pre.length → l.length ≤ n → NUL ∉ l →
      l.length + 1 + (toMakeAux N n l).2.toNat ≤ fuel →
      scanLoop N Command fuel i out =
        if (toMakeAux N n l).2 then
          .overrun (out ++ (toMakeAux N n l).1 ++ ['$', NUL]) (Command.length + 1)
        else .finished (out ++ (toMakeAux N n l).1) Command.length := by
  have hnul0 : N.MBGEN_IS_NAME0 NUL = false := by
    cases h : N.MBGEN_IS_NAME0 NUL
    · rfl
    · rw [hsub NUL h] at hnul; cases hnul
  have hnil : ∀ (n : Nat) (pre out : List Char) (fuel i : Nat) (Command : List Char),
      Command = pre ++ [] → i = pre.length → 1 ≤ fuel →
      scanLoop N Command fuel i out =
        if (toMakeAux N n []).2 then
          .overrun (out ++ (toMakeAux N n []).1 ++ ['$', NUL]) (Command.length + 1)
        else .finished (out ++ (toMakeAux N n []).1) Command.length := by
    intro n pre out fuel i Command hC hi hf
    obtain ⟨fuel, rfl⟩ : ∃ f, fuel = f + 1 := ⟨fuel - 1, by omega⟩
    have hchar : charAt Command i = some NUL := by
      rw [hC, hi, List.append_nil]; exact charAt_end pre
    have hlen : Command.length = i := by rw [hC, hi]; simp
    cases n <;> simp [scanLoop, hchar, toMakeAux, hlen]
  intro n
  induction n with
  | zero =>
    intro l pre out fuel i Command hC hi hl hN hf
    have : l = [] := List.length_eq_zero.1 (Nat.le_zero.1 hl)
    subst this
    exact hnil 0 pre out fuel i Command hC hi (by simp at hf; omega)
  | succ n ih =>
    intro l pre out fuel i Command hC hi hl hN hf
    cases l with
    | nil => exact hnil (n + 1) pre out fuel i Command hC hi (by simp at hf; omega)
    | cons c rest =>
      obtain ⟨fuel, rfl⟩ : ∃ f, fuel = f + 1 := ⟨fuel - 1, by simp at hf; omega⟩
      have hcN : c ≠ NUL := fun h => hN (by rw [h]; simp)
      have hrestN : NUL ∉ rest := fun h => hN (List.mem_cons_of_mem _ h)
      have hchar : charAt Command i = some c := by
        rw [hC, hi]; exact charAt_append_cons pre c rest
      simp only [List.length_cons] at hl hf
      by_cases hc : c = '$'
      · subst hc
        cases rest with
        | nil =>
          have hlen : Command.length = i + 1 := by rw [hC, hi]; simp
          have hchar1 : charAt Command (i + 1) = some NUL := by
            rw [← hlen]; exact charAt_end Command
          have hchar2 : charAt Command (i + 1 + 1) = none := by
            rw [← hlen]; exact charAt_past Command
          have hd : (toMakeAux N (n + 1) ['$']) = ([], true) := by
            simp [toMakeAux]
          rw [hd] at hf ⊢
          obtain ⟨fuel, rfl⟩ : ∃ f, fuel = f + 1 := ⟨fuel - 1, by simp at hf; omega⟩
          have hne : ¬ NUL = '$' := by decide
          simp [scanLoop, hchar, hcN, hchar1, hchar2, hne, hnul0, hlen]
        | cons d rest =>
          have hdN : d ≠ NUL := fun h => hN (by rw [h]; simp)
          have hrestN2 : NUL ∉ rest := fun h => hrestN (List.mem_cons_of_mem _ h)
          have hchar1 : charAt Command (i + 1) = some d := by
            have := charAt_append_cons (pre ++ ['$']) d rest
            rw [hC, hi]
            simpa using this
          simp only [List.length_cons] at hl hf
          by_cases hd : d = '$'
          · subst hd
            have h := ih rest (pre ++ ['$', '$']) (out ++ ['$']) fuel (i + 1 + 1) Command
              (by rw [hC]; simp) (by rw [hi]; simp) (by omega) hrestN2 (by
                have : (toMakeAux N (n + 1) ('$' :: '$' :: rest)).2 =
                    (toMakeAux N n rest).2 := by
                  simp [toMakeAux]
                rw [this] at hf; omega)
            simp only [scanLoop, hchar, hcN, if_false, ne_eq, not_true_eq_false, hchar1,
              if_true]
            rw [h]
            simp [toMakeAux]
          · by_cases hn0 : N.MBGEN_IS_NAME0 d = true
            · have hn1 := hsub d hn0
              have hdrop : Command.drop (i + 1) = d :: rest := by
                rw [hC, hi, show pre ++ '$' :: d :: rest = (pre ++ ['$']) ++ d :: rest by simp,
                  show pre.length + 1 = (pre ++ ['$']).length by simp, List.drop_left]
              have htw : (d :: rest).takeWhile N.MBGEN_IS_NAME =
                  d :: rest.takeWhile N.MBGEN_IS_NAME := by
                simp [List.takeWhile_cons, hn1]
              have hdw : (d :: rest).dropWhile N.MBGEN_IS_NAME =
                  rest.dropWhile N.MBGEN_IS_NAME := by
                simp [List.dropWhile_cons, hn1]
              have hnl := nameLength_eq N hnul (d :: rest)
              have htake := take_takeWhile_length N.MBGEN_IS_NAME (d :: rest)
              have hsplit := List.takeWhile_append_dropWhile N.MBGEN_IS_NAME (d :: rest)
              rw [htw] at hnl htake
              rw [htw, hdw] at hsplit
              have hle := length_dropWhile_le N.MBGEN_IS_NAME rest
              have hmem : NUL ∉ rest.dropWhile N.MBGEN_IS_NAME :=
                fun h => hrestN2 ((List.dropWhile_sublist _).subset h)
              have h := ih (rest.dropWhile N.MBGEN_IS_NAME)
                (pre ++ '$' :: d :: rest.takeWhile N.MBGEN_IS_NAME)
                (out ++ printVariable (d :: rest.takeWhile N.MBGEN_IS_NAME)) fuel
                (i + 1 + (d :: rest.takeWhile N.MBGEN_IS_NAME).length) Command
                (by rw [hC, ← hsplit]; simp) (by rw [hi]; simp; omega) (by omega) hmem (by
                  have : (toMakeAux N (n + 1) ('$' :: d :: rest)).2 =
                      (toMakeAux N n (rest.dropWhile N.MBGEN_IS_NAME)).2 := by
                    simp [toMakeAux, hd, hn0]
                  rw [this] at hf; omega)
              simp only [scanLoop, hchar, hcN, if_false, ne_eq, not_true_eq_false, hchar1, hd,
                hn0, Bool.not_true, Bool.false_eq_true, hdrop, hnl, htake]
              rw [h, printVariable_eq]
              simp [toMakeAux, hd, hn0]
            · have hn0' : N.MBGEN_IS_NAME0 d = false := by
                cases h : N.MBGEN_IS_NAME0 d
                · rfl
                · exact absurd h hn0
              have h := ih rest (pre ++ ['$', d]) (out ++ ['$', d]) fuel (i + 1 + 1) Command
                (by rw [hC]; simp) (by rw [hi]; simp) (by omega) hrestN2 (by
                  have : (toMakeAux N (n + 1) ('$' :: d :: rest)).2 =
                      (toMakeAux N n rest).2 := by
                    simp [toMakeAux, hd, hn0']
                  rw [this] at hf; omega)
              simp only [scanLoop, hchar, hcN, if_false, ne_eq, not_true_eq_false, hchar1, hd,
                hn0', Bool.not_false, if_true]
              rw [h]
              simp [toMakeAux, hd, hn0']
      · have h := ih rest (pre ++ [c]) (out ++ [c]) fuel (i + 1) Command
          (by rw [hC]; simp) (by rw [hi]; simp) (by omega) hrestN (by
            have : (toMakeAux N (n + 1) (c :: rest)).2 = (toMakeAux N n rest).2 := by
              simp [toMakeAux, hc]
            rw [this] at hf; omega)
        simp only [scanLoop, hchar, hcN, if_false, ne_eq, hc, not_false_eq_true, if_true]
        rw [h]
        simp [toMakeAux, hc]

theorem toMakeAux_no_dollar (N : NameClass) :
    ∀ (n : Nat) (l : List Char), l.length ≤ n → '$' ∉ l → toMakeAux N n l = (l, false) := by
  intro n
  induction n with
  | zero =>
    intro l hl _
    have : l = [] := List.length_eq_zero.1 (Nat.le_zero.1 hl)
    subst this
    simp [toMakeAux]
  | succ n ih =>
    intro l hl hd
    cases l with
    | nil => simp [toMakeAux]
    | cons c rest =>
      have hc : c ≠ '$' := fun h => hd (by rw [h]; simp)
      have hrest : '$' ∉ rest := fun h => hd (List.mem_cons_of_mem _ h)
      simp only [List.length_cons] at hl
      simp [toMakeAux, hc, ih rest (by omega) hrest]

theorem identifierClass_sub (c : Char)
    (h : identifierClass.MBGEN_IS_NAME0 c = true) : identifierClass.MBGEN_IS_NAME c = true := by
  simp only [identifierClass, Char.isAlphanum, Bool.or_eq_true] at h ⊢
  rcases h with h | h
  · exact Or.inl (Or.inl h)
  · exact Or.inr h

/-- C13 holds on the code for every command but those that end in a left-over
`$`.  With name classes where a character that starts a name also continues
one and the terminator is no name character, and once the copy is allocated,
the text written for a command is the text the rules of the claim give (a
character other than `$` as it is, `$$` as one `$`, `$` and a character that
cannot start a name as the two of them, `$` and a name as `$+`, `$@` or
`$(name)`, the scan going on after the name), and the scan ends at the
terminator; in particular a command without `$` is written as it is.  For a
command that ends in a left-over `$` the text written is the text of the rules
up to that `$`, then the `$` and the terminator, and the scan leaves the
command: there the code does not convert the command as the claim says. -/
theorem C13_scan_follows_rules (N : NameClass)
    (hsub : ∀ c, N.MBGEN_IS_NAME0 c = true → N.MBGEN_IS_NAME c = true)
    (hnul : N.MBGEN_IS_NAME NUL = false)
    (Command : List Char) (hC : NUL ∉ Command) (extra : Nat) :
    (MbgenMakePrintToolCommand N true (Command.length + 1 + 1 + extra) Command =
      if danglingDollar N Command then
        .overrun (toMake N Command ++ ['$', NUL]) (Command.length + 1)
      else .finished (toMake N Command) Command.length) ∧
    (danglingDollar N Command = false →
      MbgenMakePrintToolCommand N true (Command.length + 1 + extra) Command =
        .finished (toMake N Command) Command.length) ∧
    ('$' ∉ Command →
      MbgenMakePrintToolCommand N true (Command.length + 1 + extra) Command =
        .finished Command Command.length) := by
  have hall : MbgenMakePrintToolCommand N true (Command.length + 1 + 1 + extra) Command =
      if danglingDollar N Command then
        .overrun (toMake N Command ++ ['$', NUL]) (Command.length + 1)
      else .finished (toMake N Command) Command.length := by
    have h := scanLoop_rules N hsub hnul Command.length Command [] []
      (Command.length + 1 + 1 + extra) 0 Command (by simp) rfl (le_refl _) hC (by
        have := Bool.toNat_le (toMakeAux N Command.length Command).2
        omega)
    unfold MbgenMakePrintToolCommand toMake danglingDollar
    rw [if_pos rfl, h]
    simp
  have hmain : danglingDollar N Command = false →
      MbgenMakePrintToolCommand N true (Command.length + 1 + extra) Command =
        .finished (toMake N Command) Command.length := by
    intro hd
    unfold danglingDollar at hd
    have h := scanLoop_rules N hsub hnul Command.length Command [] []
      (Command.length + 1 + extra) 0 Command (by simp) rfl (le_refl _) hC (by
        rw [hd]; simp)
    unfold MbgenMakePrintToolCommand toMake
    rw [if_pos rfl, h, hd]
    simp
  refine ⟨hall, hmain, fun hno => ?_⟩
  have h := toMakeAux_no_dollar N Command.length Command (le_refl _) hno
  have hd : danglingDollar N Command = false := by unfold danglingDollar; rw [h]
  have ht : toMake N Command = Command := by unfold toMake; rw [h]
  rw [hmain hd, ht]

/-- C13 with the name characters of C identifiers, at the command
`cc -o $out $IN $$x $1 $CFLAGS$b_1.c`, which is converted by the rules, and
at the command `cc $in $`, where `cc $+ ` is written by the rules and then
the `$`, the terminator, and the cursor leaves the command. -/
theorem C13_scan_follows_rules_witness :
    (∀ c, identifierClass.MBGEN_IS_NAME0 c = true → identifierClass.MBGEN_IS_NAME c = true) ∧
    identifierClass.MBGEN_IS_NAME NUL = false ∧
    NUL ∉ sampleCommand ∧ NUL ∉ leftOverCommand ∧
    danglingDollar identifierClass sampleCommand = false ∧
    toMake identifierClass sampleCommand = sampleText ∧
    MbgenMakePrintToolCommand identifierClass true (sampleCommand.length + 1 + 0)
        sampleCommand =
      .finished (toMake identifierClass sampleCommand) sampleCommand.length ∧
    MbgenMakePrintToolCommand identifierClass true (leftOverCommand.length + 1 + 1 + 0)
        leftOverCommand =
      .overrun ['c', 'c', ' ', '$', '+', ' ', '$', NUL] 9 ∧
    MbgenMakePrintToolCommand identifierClass true (leftOverCommand.length + 1 + 1 + 0)
        leftOverCommand =
      (if danglingDollar identifierClass leftOverCommand then
        .overrun (toMake identifierClass leftOverCommand ++ ['$', NUL])
          (leftOverCommand.length + 1)
      else .finished (toMake identifierClass leftOverCommand) leftOverCommand.length) :=
  ⟨identifierClass_sub, by decide, by decide, by decide, by decide, by decide,
    (C13_scan_follows_rules identifierClass identifierClass_sub (by decide) sampleCommand
      (by decide) 0).2.1 (by decide),
    by decide,
    (C13_scan_follows_rules identifierClass identifierClass_sub (by decide) leftOverCommand
      (by decide) 0).1⟩

/-- C14 fails on the code: for a command that ends in a left-over `$`, such as
`a$`, the scan takes the terminator for the character after the `$`, writes
the `$` and the terminator to the file, moves the cursor one past the
terminator and reads there. -/
theorem C14_dangling_dollar_overruns (N : NameClass)
    (hsub : ∀ c, N.MBGEN_IS_NAME0 c = true → N.MBGEN_IS_NAME c = true)
    (hnul : N.MBGEN_IS_NAME NUL = false)
    (Command : List Char) (hC : NUL ∉ Command)
    (hdangling : danglingDollar N Command = true) (extra : Nat) :
    MbgenMakePrintToolCommand N true (Command.length + 1 + 1 + extra) Command =
      .overrun (toMake N Command ++ ['$', NUL]) (Command.length + 1) := by
  unfold danglingDollar at hdangling
  have h := scanLoop_rules N hsub hnul Command.length Command [] []
    (Command.length + 1 + 1 + extra) 0 Command (by simp) rfl (le_refl _) hC (by
      rw [hdangling]; simp)
  unfold MbgenMakePrintToolCommand toMake
  rw [if_pos rfl, h, hdangling]
  simp

/-- C14 at the command `a$` with the name characters of C identifiers: the
terminator is written and the cursor ends at index three of a string of
length two. -/
theorem C14_dangling_dollar_overruns_witness :
    (∀ c, identifierClass.MBGEN_IS_NAME0 c = true → identifierClass.MBGEN_IS_NAME c = true) ∧
    identifierClass.MBGEN_IS_NAME NUL = false ∧
    NUL ∉ danglingCommand ∧
    danglingDollar identifierClass danglingCommand = true ∧
    MbgenMakePrintToolCommand identifierClass true (danglingCommand.length + 1 + 1 + 0)
        danglingCommand = .overrun ['a', '$', NUL] 3 ∧
    MbgenMakePrintToolCommand identifierClass true (danglingCommand.length + 1 + 1 + 0)
        danglingCommand =
      .overrun (toMake identifierClass danglingCommand ++ ['$', NUL])
        (danglingCommand.length + 1) :=
  ⟨identifierClass_sub, by decide, by decide, by decide, by decide,
    C14_dangling_dollar_overruns identifierClass identifierClass_sub (by decide)
      danglingCommand (by decide) (by decide) 0⟩

end Mbgen
